import Mathlib

/-!
# Sui MCP server: tool catalog, handlers and call-tool dispatcher

A shallow embedding of `src/index.ts`.

* JavaScript numbers are IEEE-754 doubles; they are modelled exactly by a sign, a natural
  mantissa and an integer exponent (`F64`), with round-to-nearest-even done on naturals.
* JavaScript values that can reach the handlers (parsed JSON) are `JsVal`.
* The process-wide variables `wallets`, `client`, `currentNetwork`, `clientInitialized`
  are the fields of `State`, passed explicitly.
* The chain client, the key-management libraries and the few runtime services that are not
  modelled in full (`JSON.stringify`, number formatting of non-integers, number parsing of
  non-digit strings) are parameters: `Chain`, `Sdk`, `Runtime`.
* A thrown exception / rejected promise is the `error` side of `Except Thrown`.
-/

namespace SuiMcp

/-! ## IEEE-754 doubles -/

/-- A JavaScript number. `fin neg m e` is the real number `(-1)^neg * m * 2^e`; zero is `m = 0`
(so `fin true 0 _` is `-0`). -/
inductive F64 where
  | nan
  | inf (neg : Bool)
  | fin (neg : Bool) (m : Nat) (e : Int)
deriving DecidableEq, Repr

/-- Fuelled binary logarithm: `log2Fuel n n = ⌊log₂ n⌋` for `n > 0`. -/
def log2Fuel : Nat → Nat → Nat
  | 0, _ => 0
  | fuel + 1, n => if n < 2 then 0 else log2Fuel fuel (n / 2) + 1

/-- Floor of the binary logarithm of a natural number (0 for 0). -/
def ilog2 (n : Nat) : Nat := log2Fuel n n

/-- The fraction `a / (b * 2^e)` as a pair numerator, denominator of naturals. -/
def scalePair (a b : Nat) (e : Int) : Nat × Nat :=
  if 0 ≤ e then (a, b * 2 ^ e.toNat) else (a * 2 ^ (-e).toNat, b)

/-- Nearest natural to `num / den`, ties to the even one. -/
def roundHalfEven (num den : Nat) : Nat :=
  let k := num / den
  let r := num % den
  if 2 * r < den then k
  else if den < 2 * r then k + 1
  else if k % 2 = 0 then k else k + 1

/-- Floor of the binary logarithm of the positive fraction `a / b`. -/
def floorLog2 (a b : Nat) : Int :=
  let l : Int := (ilog2 a : Int) - (ilog2 b : Int)
  let p := scalePair a b l
  if p.2 ≤ p.1 then l else l - 1

/-- Round the positive fraction `a / b` to the nearest double (ties to even), with gradual
underflow below `2^-1022` and overflow to infinity: 53-bit mantissa, exponent of the last
place between `-1074` and `971`. -/
def roundPos (neg : Bool) (a b : Nat) : F64 :=
  let e : Int := max (floorLog2 a b - 52) (-1074)
  let p := scalePair a b e
  let m := roundHalfEven p.1 p.2
  let m1 := if m = 2 ^ 53 then 2 ^ 52 else m
  let e1 := if m = 2 ^ 53 then e + 1 else e
  if 971 < e1 then F64.inf neg
  else if m1 = 0 then F64.fin neg 0 0
  else F64.fin neg m1 e1

namespace F64

/-- The exact value of a finite double as a rational (0 for NaN and the infinities). -/
def toRat : F64 → ℚ
  | fin neg m e => (if neg then -1 else 1) * (m : ℚ) * (2 : ℚ) ^ e
  | _ => 0

/-- Finite doubles. -/
def isFinite : F64 → Bool
  | fin _ _ _ => true
  | _ => false

/-- The double of a natural number literal or count. -/
def ofNat (n : Nat) : F64 :=
  if n = 0 then fin false 0 0 else roundPos false n 1

/-- The double a decimal numeral `digits * 10^-scale` denotes, as in a number of the request's
JSON text: the nearest double. -/
def ofDecimal (digits scale : Nat) : F64 :=
  if digits = 0 then fin false 0 0 else roundPos false digits (10 ^ scale)

/-- The literal `1_000_000_000`. -/
def billion : F64 := fin false 1000000000 0

/-- Round `a * 2^x / b` with the given sign. -/
def roundScaled (neg : Bool) (a b : Nat) (x : Int) : F64 :=
  let p := scalePair a b (-x)
  roundPos neg p.1 p.2

/-- Double multiplication `x * y`. -/
def mul : F64 → F64 → F64
  | nan, _ => nan
  | _, nan => nan
  | inf s, inf t => inf (xor s t)
  | inf s, fin t n _ => if n = 0 then nan else inf (xor s t)
  | fin s m _, inf t => if m = 0 then nan else inf (xor s t)
  | fin s m e, fin t n f =>
    if m * n = 0 then fin (xor s t) 0 0 else roundScaled (xor s t) (m * n) 1 (e + f)

/-- Double division `x / y`. -/
def div : F64 → F64 → F64
  | nan, _ => nan
  | _, nan => nan
  | inf _, inf _ => nan
  | inf s, fin t _ _ => inf (xor s t)
  | fin s _ _, inf t => fin (xor s t) 0 0
  | fin s m e, fin t n f =>
    if n = 0 then (if m = 0 then nan else inf (xor s t))
    else if m = 0 then fin (xor s t) 0 0
    else roundScaled (xor s t) m n (e - f)

/-- Function `Math.floor`. -/
def floor : F64 → F64
  | fin neg m e =>
    if 0 ≤ e then fin neg m e
    else
      let d := 2 ^ (-e).toNat
      let k := if neg then (m + d - 1) / d else m / d
      if k = 0 then fin neg 0 0 else roundPos neg k 1
  | x => x

/-- The magnitude of an integer-valued finite double. -/
def natAbs? : F64 → Option Nat
  | fin _ m e =>
    if 0 ≤ e then some (m * 2 ^ e.toNat)
    else if m % 2 ^ (-e).toNat = 0 then some (m / 2 ^ (-e).toNat) else none
  | _ => none

/-- Zero of either sign. -/
def isZero : F64 → Bool
  | fin _ m _ => m = 0
  | _ => false

/-- Comparison `SameValueZero` on numbers: NaN equals NaN, `+0` equals `-0`, otherwise equality of value. -/
def sameValueZero : F64 → F64 → Bool
  | nan, nan => true
  | inf s, inf t => s == t
  | fin s m e, fin t n f =>
    if m = 0 ∨ n = 0 then decide (m = 0 ∧ n = 0)
    else s == t && decide (m * 2 ^ (e - min e f).toNat = n * 2 ^ (f - min e f).toNat)
  | _, _ => false

end F64

/-! ## Decimal digits -/

/-- The character of a decimal digit. -/
def digitChar (d : Nat) : Char := Char.ofNat (48 + d)

/-- Decimal digits of `n`, most significant first, pushed in front of `acc`. -/
def decimalDigits : Nat → Nat → List Char → List Char
  | 0, _, acc => acc
  | fuel + 1, n, acc =>
    if n < 10 then digitChar n :: acc
    else decimalDigits fuel (n / 10) (digitChar (n % 10) :: acc)

/-- The decimal string of a natural number, without leading zeros. -/
def natToDecimal (n : Nat) : String := String.mk (decimalDigits (n + 1) n [])

/-- The value of a decimal digit character. -/
def digitVal? (c : Char) : Option Nat :=
  if 48 ≤ c.toNat ∧ c.toNat ≤ 57 then some (c.toNat - 48) else none

/-- The number written by a list of decimal digits, read after the prefix value `acc`. -/
def parseDigitsFrom : List Char → Nat → Option Nat
  | [], acc => some acc
  | c :: cs, acc =>
    match digitVal? c with
    | some d => parseDigitsFrom cs (10 * acc + d)
    | none => none

/-- The natural number written by a non-empty string of decimal digits. -/
def parseDecimal (s : String) : Option Nat :=
  match s.data with
  | [] => none
  | cs => parseDigitsFrom cs 0

/-! ## JavaScript values -/

/-- A JavaScript value as it reaches a handler: parsed JSON, `undefined`, or (only as the result
of a lookup that reaches `Object.prototype`) a function. The fields of an object are listed in
property order, each key once. -/
inductive JsVal where
  | undefined
  | null
  | bool (b : Bool)
  | num (x : F64)
  | str (s : String)
  | arr (xs : List JsVal)
  | obj (fields : List (String × JsVal))
  | fn

/-- What a `throw` carries: an `Error` object with its `name` and `message`, or any other
value. -/
inductive Thrown where
  | error (name : String) (message : String)
  | value (v : JsVal)

/-- The runtime services that are taken as given. -/
structure Runtime where
  /-- Result of `Number::toString` for a finite number that is not an integer below `2^53`. -/
  numberToString : F64 → String
  /-- Result of `StringToNumber` for a string that is not a plain run of decimal digits. -/
  stringToNumber : String → F64
  /-- Result of `JSON.stringify(value, null, 2)`; on the plain data trees of `JsVal`
  (no cycles, no BigInt) it always yields a string. -/
  jsonStringify : JsVal → String
  /-- The source text a function converts to. -/
  functionToString : String
  /-- The message of the `TypeError` raised when property `prop` is destructured from
  `undefined` or `null`. -/
  destructureMessage : String → JsVal → String

/-- Operation `Number::toString`. It prints the shortest digit string that reads back as the
same double; for an integer below `2^53` these are its decimal digits. -/
def numberToString (rt : Runtime) : F64 → String
  | F64.nan => "NaN"
  | F64.inf false => "Infinity"
  | F64.inf true => "-Infinity"
  | F64.fin neg m e =>
    match (F64.fin neg m e).natAbs? with
    | some k =>
      if k < 2 ^ 53 then (if neg && k != 0 then "-" else "") ++ natToDecimal k
      else rt.numberToString (F64.fin neg m e)
    | none => rt.numberToString (F64.fin neg m e)

/-- Operation `ToString`, as applied by a template literal and by `String(v)`. -/
def JsVal.toJsString (rt : Runtime) : JsVal → String
  | .undefined => "undefined"
  | .null => "null"
  | .bool b => if b then "true" else "false"
  | .num x => numberToString rt x
  | .str s => s
  | .arr xs => String.intercalate "," (joinElems xs)
  | .obj _ => "[object Object]"
  | .fn => rt.functionToString
where
  /-- Method `Array.prototype.join`: `undefined` and `null` elements print as the empty string. -/
  joinElems : List JsVal → List String
    | [] => []
    | .undefined :: xs => "" :: joinElems xs
    | .null :: xs => "" :: joinElems xs
    | x :: xs => JsVal.toJsString rt x :: joinElems xs

/-- Operation `StringToNumber`: a run of decimal digits is rounded to the nearest double (the
rounding V8 performs for any number of digits). -/
def stringToNumber (rt : Runtime) (s : String) : F64 :=
  match parseDecimal s with
  | some n => F64.ofNat n
  | none => rt.stringToNumber s

/-- Operation `ToNumber`, as applied by `Number(v)` and by the operands of `*` and `/`. -/
def JsVal.toNumber (rt : Runtime) : JsVal → F64
  | .undefined => F64.nan
  | .null => F64.fin false 0 0
  | .bool b => if b then F64.fin false 1 0 else F64.fin false 0 0
  | .num x => x
  | .str s => stringToNumber rt s
  | .arr xs => stringToNumber rt (JsVal.toJsString rt (.arr xs))
  | .obj fs => stringToNumber rt (JsVal.toJsString rt (.obj fs))
  | .fn => F64.nan

/-- Operation `ToBoolean`. -/
def JsVal.truthy : JsVal → Bool
  | .undefined => false
  | .null => false
  | .bool b => b
  | .num F64.nan => false
  | .num x => !x.isZero
  | .str s => s != ""
  | _ => true

/-- Comparison `SameValueZero`, the key comparison of `Map`. An object, array or function is equal only to
itself, and a value parsed from a request is never the one stored by an earlier request. -/
def JsVal.sameValueZero : JsVal → JsVal → Bool
  | .undefined, .undefined => true
  | .null, .null => true
  | .bool a, .bool b => a == b
  | .num x, .num y => F64.sameValueZero x y
  | .str s, .str t => s == t
  | _, _ => false

/-- Strict equality with a string literal: `v === "lit"`. -/
def JsVal.strictEqStr : JsVal → String → Bool
  | .str s, lit => s == lit
  | _, _ => false

/-- Method `Error.prototype.toString` / `String(e)` of a thrown value. -/
def Thrown.toJsString (rt : Runtime) : Thrown → String
  | .error name message =>
    if name = "" then message else if message = "" then name else name ++ ": " ++ message
  | .value v => v.toJsString rt

/-- A property explicitly destructured from `args`: `undefined` and `null` throw a `TypeError`,
an object yields its own property, everything else has no such property. -/
def getArg (rt : Runtime) (args : JsVal) (prop : String) : Except Thrown JsVal :=
  match args with
  | .undefined => .error (.error "TypeError" (rt.destructureMessage prop .undefined))
  | .null => .error (.error "TypeError" (rt.destructureMessage prop .null))
  | .obj fields => .ok ((fields.lookup prop).getD .undefined)
  | _ => .ok .undefined

/-! ## External collaborators -/

/-- An `Ed25519Keypair`, determined by its secret key bytes. -/
structure Keypair where
  secretKey : List Nat
deriving DecidableEq, Repr

/-- The key-management and address functions of the SDK and of `bip39` / `ed25519-hd-key`. -/
structure Sdk where
  /-- Result of `getFullnodeUrl(network)`. -/
  getFullnodeUrl : String → String
  /-- Result of `mnemonicToSeedSync(mnemonic).toString("hex")`. -/
  mnemonicToSeedHex : JsVal → Except Thrown String
  /-- The `key` of `derivePath(path, seedHex)`. -/
  derivePath : String → String → Except Thrown (List Nat)
  /-- Result of `Ed25519Keypair.fromSecretKey`. -/
  fromSecretKey : List Nat → Except Thrown Keypair
  /-- Result of `keypair.getPublicKey().toSuiAddress()`. -/
  toSuiAddress : Keypair → String
  /-- Result of `fromB64`. -/
  fromB64 : String → Except Thrown (List Nat)
  /-- Result of `new Uint8Array(Buffer.from(s, 'hex'))`. -/
  bufferFromHex : String → List Nat
  /-- Result of `isValidSuiAddress`. -/
  isValidSuiAddress : JsVal → Except Thrown Bool
  /-- Result of `normalizeSuiAddress`. -/
  normalizeSuiAddress : JsVal → Except Thrown String

/-- How a promise of the chain client ends within the wait of `withTimeout`. -/
inductive Settled (α : Type) where
  | resolved (v : α)
  | rejected (e : Thrown)
  | pending

/-- The `CoinBalance` record of the chain client (the fields the handlers read). -/
structure CoinBalance where
  coinType : String
  coinObjectCount : F64
  totalBalance : String

/-- The answers of the chain client during one tool call; the first argument is the URL the
client was constructed with. -/
structure Chain where
  getBalance : JsVal → String → JsVal → Settled CoinBalance
  getAllBalances : JsVal → String → Settled (List CoinBalance)
  getChainIdentifier : JsVal → Settled String

/-- A request issued to the chain client. -/
inductive ChainCall where
  | getBalance (url : JsVal) (owner : String) (coinType : JsVal)
  | getAllBalances (url : JsVal) (owner : String)
  | getChainIdentifier (url : JsVal)

/-- Everything outside the program that a tool call depends on. -/
structure Env where
  rt : Runtime
  sdk : Sdk
  chain : Chain
  /-- The phrase `generateMnemonic()` returns in this call. -/
  mnemonic : String

/-- Timeout wrapper `withTimeout`: the promise's own outcome if it settles within the wait,
else the rejection `Error('Operation timed out')`. -/
def withTimeout {α : Type} : Settled α → Except Thrown α
  | .resolved v => .ok v
  | .rejected e => .error e
  | .pending => .error (.error "Error" "Operation timed out")

/-! ## Process-wide state -/

/-- An entry of the `wallets` map. -/
structure Wallet where
  keypair : Keypair
  name : JsVal
  mnemonic : JsVal

/-- The module-level variables. `client` is the URL the current `SuiClient` was built with
(`none` before the first `initializeClient`). `wallets` keeps insertion order, as `Map` does. -/
structure State where
  wallets : List (JsVal × Wallet)
  client : Option JsVal
  currentNetwork : JsVal
  clientInitialized : Bool

/-- The state at process start. -/
def State.initial : State :=
  { wallets := [], client := none, currentNetwork := .str "devnet", clientInitialized := false }

/-- Map lookup `wallets.get(key)`. -/
def mapGet (key : JsVal) : List (JsVal × Wallet) → Option Wallet
  | [] => none
  | (k, w) :: rest => if k.sameValueZero key then some w else mapGet key rest

/-- Map membership `wallets.has(key)`. -/
def mapHas (key : JsVal) (m : List (JsVal × Wallet)) : Bool := (mapGet key m).isSome

/-- Map update `wallets.set(key, w)`: an existing key keeps its position, a new key goes last. -/
def mapSet (key : JsVal) (w : Wallet) : List (JsVal × Wallet) → List (JsVal × Wallet)
  | [] => [(key, w)]
  | (k, v) :: rest =>
    if k.sameValueZero key then (k, w) :: rest else (k, v) :: mapSet key w rest

/-- The names of the properties every object inherits from `Object.prototype`. -/
def objectPrototypeKeys : List String :=
  ["constructor", "__defineGetter__", "__defineSetter__", "hasOwnProperty",
   "__lookupGetter__", "__lookupSetter__", "isPrototypeOf", "propertyIsEnumerable",
   "toString", "valueOf", "toLocaleString"]

/-- The own keys of `NETWORKS`. -/
def networkNames : List String := ["mainnet", "testnet", "devnet", "localnet"]

/-- Property read `NETWORKS[key]`: an own property is the full-node URL; other keys fall
through to `Object.prototype`. -/
def networksGet (env : Env) (key : JsVal) : JsVal :=
  let k := key.toJsString env.rt
  if k ∈ networkNames then .str (env.sdk.getFullnodeUrl k)
  else if k = "__proto__" then .obj []
  else if k ∈ objectPrototypeKeys then .fn
  else .undefined

/-- Source function `initializeClient(network)`. -/
def initializeClient (env : Env) (st : State) (arg : JsVal) : State :=
  let network := match arg with
    | .undefined => JsVal.str "devnet"
    | v => v
  let looked := networksGet env network
  let rpcUrl := if looked.truthy then looked else networksGet env (.str "devnet")
  { st with currentNetwork := network, client := some rpcUrl }

/-- Source function `ensureClient()`; the call `initializeClient()` takes the default
parameter `"devnet"`. -/
def ensureClient (env : Env) (st : State) : State :=
  if !st.clientInitialized then
    { initializeClient env st (.str "devnet") with clientInitialized := true }
  else st

/-- The URL of the client in use (after `ensureClient` there always is one). -/
def State.clientUrl (st : State) : JsVal := st.client.getD .undefined

/-! ## Tool handlers -/

/-- What one handler invocation does: its completion (returned payload or thrown value), the
state it leaves, and the requests it sent to the chain client, in order. -/
structure Outcome where
  result : Except Thrown JsVal
  state : State
  chainCalls : List ChainCall

/-- The key derivation shared by wallet creation and mnemonic import:
`mnemonicToSeedSync`, `derivePath("m/44'/784'/0'/0'/0'", seedHex)`, `fromSecretKey`. -/
def deriveKeypair (env : Env) (mnemonic : JsVal) : Except Thrown Keypair := do
  let seedHex ← env.sdk.mnemonicToSeedHex mnemonic
  let key ← env.sdk.derivePath "m/44'/784'/0'/0'/0'" seedHex
  env.sdk.fromSecretKey key

/-- Source function `handleCreateWallet`. -/
def handleCreateWallet (env : Env) (st : State) (args : JsVal) : Outcome :=
  match getArg env.rt args "name" with
  | .error e => ⟨.error e, st, []⟩
  | .ok name =>
    if mapHas name st.wallets then
      ⟨.error (.error "Error"
        ("Wallet with name '" ++ name.toJsString env.rt ++ "' already exists")), st, []⟩
    else
      match deriveKeypair env (.str env.mnemonic) with
      | .error e => ⟨.error e, st, []⟩
      | .ok keypair =>
        ⟨.ok (.obj [("success", .bool true),
            ("wallet", .obj [("name", name),
              ("address", .str (env.sdk.toSuiAddress keypair)),
              ("mnemonic", .str env.mnemonic)])]),
          { st with wallets := mapSet name ⟨keypair, name, .str env.mnemonic⟩ st.wallets },
          []⟩

/-- The inner `try` of `handleImportWallet`: the secret key bytes of a `privateKey` argument.
A value without a `startsWith` method raises a `TypeError` there, which the inner `catch`
replaces. -/
def parsePrivateKey (env : Env) : JsVal → Except Thrown (List Nat)
  | .str s =>
    if s.startsWith "0x" then .ok (env.sdk.bufferFromHex (s.drop 2))
    else
      match env.sdk.fromB64 s with
      | .ok bytes => .ok bytes
      | .error _ => .ok (env.sdk.bufferFromHex s)
  | _ => .error (.error "Error" "Invalid private key format")

/-- Source function `handleImportWallet`. -/
def handleImportWallet (env : Env) (st : State) (args : JsVal) : Outcome :=
  match getArg env.rt args "name", getArg env.rt args "mnemonic",
      getArg env.rt args "privateKey" with
  | .ok name, .ok mnemonic, .ok privateKey =>
    if mapHas name st.wallets then
      ⟨.error (.error "Error"
        ("Wallet with name '" ++ name.toJsString env.rt ++ "' already exists")), st, []⟩
    else
      let derived : Except Thrown Keypair :=
        if mnemonic.truthy then deriveKeypair env mnemonic
        else if privateKey.truthy then
          (parsePrivateKey env privateKey).bind env.sdk.fromSecretKey
        else .error (.error "Error" "Either mnemonic or privateKey must be provided")
      match derived with
      | .ok keypair =>
        ⟨.ok (.obj [("success", .bool true),
            ("wallet", .obj [("name", name),
              ("address", .str (env.sdk.toSuiAddress keypair))])]),
          { st with wallets := mapSet name ⟨keypair, name, mnemonic⟩ st.wallets },
          []⟩
      | .error e =>
        ⟨.error (.error "Error" ("Failed to import wallet: " ++ e.toJsString env.rt)), st, []⟩
  | .error e, _, _ => ⟨.error e, st, []⟩
  | _, .error e, _ => ⟨.error e, st, []⟩
  | _, _, .error e => ⟨.error e, st, []⟩

/-- Source function `handleListWallets`. -/
def handleListWallets (env : Env) (st : State) : Outcome :=
  let walletList := st.wallets.map fun kw =>
    JsVal.obj [("name", kw.2.name), ("address", .str (env.sdk.toSuiAddress kw.2.keypair))]
  ⟨.ok (.obj [("wallets", .arr walletList), ("count", .num (F64.ofNat walletList.length))]),
    st, []⟩

/-- The payload entry `Number(totalBalance) / 1_000_000_000`. -/
def mistStringToSui (rt : Runtime) (totalBalance : String) : F64 :=
  F64.div (stringToNumber rt totalBalance) F64.billion

/-- Source function `handleGetBalance`. -/
def handleGetBalance (env : Env) (st : State) (args : JsVal) : Outcome :=
  match getArg env.rt args "walletName", getArg env.rt args "coinType" with
  | .ok walletName, .ok coinTypeArg =>
    let coinType := match coinTypeArg with
      | .undefined => JsVal.str "0x2::sui::SUI"
      | v => v
    match mapGet walletName st.wallets with
    | none =>
      ⟨.error (.error "Error" ("Wallet '" ++ walletName.toJsString env.rt ++ "' not found")),
        st, []⟩
    | some wallet =>
      let st1 := ensureClient env st
      let address := env.sdk.toSuiAddress wallet.keypair
      let call := ChainCall.getBalance st1.clientUrl address coinType
      match withTimeout (env.chain.getBalance st1.clientUrl address coinType) with
      | .error e => ⟨.error e, st1, [call]⟩
      | .ok balance =>
        ⟨.ok (.obj [("wallet", walletName), ("address", .str address), ("coinType", coinType),
            ("balance", .obj [("totalBalance", .str balance.totalBalance),
              ("sui", .num (mistStringToSui env.rt balance.totalBalance)),
              ("coinObjectCount", .num balance.coinObjectCount)])]),
          st1, [call]⟩
  | .error e, _ => ⟨.error e, st, []⟩
  | _, .error e => ⟨.error e, st, []⟩

/-- Source function `handleGetAllBalances`. -/
def handleGetAllBalances (env : Env) (st : State) (args : JsVal) : Outcome :=
  match getArg env.rt args "walletName" with
  | .error e => ⟨.error e, st, []⟩
  | .ok walletName =>
    match mapGet walletName st.wallets with
    | none =>
      ⟨.error (.error "Error" ("Wallet '" ++ walletName.toJsString env.rt ++ "' not found")),
        st, []⟩
    | some wallet =>
      let st1 := ensureClient env st
      let address := env.sdk.toSuiAddress wallet.keypair
      let call := ChainCall.getAllBalances st1.clientUrl address
      match withTimeout (env.chain.getAllBalances st1.clientUrl address) with
      | .error e => ⟨.error e, st1, [call]⟩
      | .ok balances =>
        ⟨.ok (.obj [("wallet", walletName), ("address", .str address),
            ("balances", .arr (balances.map fun balance =>
              JsVal.obj [("coinType", .str balance.coinType),
                ("totalBalance", .str balance.totalBalance),
                ("sui", .num (mistStringToSui env.rt balance.totalBalance)),
                ("coinObjectCount", .num balance.coinObjectCount)]))]),
          st1, [call]⟩

/-- Source function `handleGetNetworkInfo`. -/
def handleGetNetworkInfo (env : Env) (st : State) : Outcome :=
  let st1 := ensureClient env st
  let call := ChainCall.getChainIdentifier st1.clientUrl
  match withTimeout (env.chain.getChainIdentifier st1.clientUrl) with
  | .ok chainId =>
    ⟨.ok (.obj [("network", st1.currentNetwork),
        ("rpcUrl", networksGet env st1.currentNetwork), ("chainId", .str chainId)]),
      st1, [call]⟩
  | .error _ =>
    ⟨.ok (.obj [("network", st1.currentNetwork),
        ("rpcUrl", networksGet env st1.currentNetwork),
        ("error", .str "Failed to fetch network details")]),
      st1, [call]⟩

/-- Source function `handleSwitchNetwork`. -/
def handleSwitchNetwork (env : Env) (st : State) (args : JsVal) : Outcome :=
  match getArg env.rt args "network" with
  | .error e => ⟨.error e, st, []⟩
  | .ok network =>
    if !(networksGet env network).truthy then
      ⟨.error (.error "Error" ("Unsupported network: " ++ network.toJsString env.rt)), st, []⟩
    else
      let st1 := initializeClient env st network
      ⟨.ok (.obj [("success", .bool true), ("previousNetwork", st1.currentNetwork),
          ("currentNetwork", network), ("rpcUrl", networksGet env network)]),
        st1, []⟩

/-- Source function `handleRequestTokensFromFaucet`. -/
def handleRequestTokensFromFaucet (env : Env) (st : State) (args : JsVal) : Outcome :=
  match getArg env.rt args "walletName" with
  | .error e => ⟨.error e, st, []⟩
  | .ok walletName =>
    if st.currentNetwork.strictEqStr "mainnet" then
      ⟨.error (.error "Error" "Faucet is not available on mainnet"), st, []⟩
    else
      match mapGet walletName st.wallets with
      | none =>
        ⟨.error (.error "Error" ("Wallet '" ++ walletName.toJsString env.rt ++ "' not found")),
          st, []⟩
      | some wallet =>
        ⟨.ok (.obj [("success", .bool false),
            ("message", .str
              "Faucet functionality requires additional setup. Use the Sui CLI or web faucet."),
            ("address", .str (env.sdk.toSuiAddress wallet.keypair)),
            ("faucetUrl", .str
              ("https://faucet." ++ st.currentNetwork.toJsString env.rt ++ ".sui.io/"))]),
          st, []⟩

/-- Source function `handleValidateAddress`. -/
def handleValidateAddress (env : Env) (st : State) (args : JsVal) : Outcome :=
  match getArg env.rt args "address" with
  | .error e => ⟨.error e, st, []⟩
  | .ok address =>
    let body : Except Thrown JsVal := do
      let isValid ← env.sdk.isValidSuiAddress address
      let normalized ←
        if isValid then (env.sdk.normalizeSuiAddress address).map JsVal.str else pure JsVal.null
      pure (.obj [("address", address), ("valid", .bool isValid), ("normalized", normalized),
        ("message", .str (if isValid then "Valid Sui address" else "Invalid Sui address"))])
    match body with
    | .ok payload => ⟨.ok payload, st, []⟩
    | .error _ =>
      ⟨.ok (.obj [("address", address), ("valid", .bool false),
        ("message", .str "Invalid Sui address format")]), st, []⟩

/-- Source function `handleNormalizeAddress`. -/
def handleNormalizeAddress (env : Env) (st : State) (args : JsVal) : Outcome :=
  match getArg env.rt args "address" with
  | .error e => ⟨.error e, st, []⟩
  | .ok address =>
    match env.sdk.normalizeSuiAddress address with
    | .ok normalized =>
      ⟨.ok (.obj [("original", address), ("normalized", .str normalized),
        ("valid", .bool true)]), st, []⟩
    | .error _ =>
      ⟨.ok (.obj [("original", address), ("normalized", .null), ("valid", .bool false),
        ("error", .str "Invalid address format")]), st, []⟩

/-- Left-pad a digit list with zeros to the given width. -/
def padLeftZeros (width : Nat) (cs : List Char) : List Char :=
  List.replicate (width - cs.length) '0' ++ cs

/-- Method `Number.prototype.toFixed(9)`: the exact value rounded to nine decimals, halves
upwards; values from `10^21` on print as `ToString` does. -/
def toFixed9 (rt : Runtime) : F64 → String
  | F64.nan => "NaN"
  | F64.inf false => "Infinity"
  | F64.inf true => "-Infinity"
  | F64.fin neg m e =>
    let sign := if neg && m != 0 then "-" else ""
    let p := scalePair m 1 (-e)
    if 10 ^ 21 * p.2 ≤ p.1 then sign ++ numberToString rt (F64.fin false m e)
    else
      let n := (2 * p.1 * 10 ^ 9 + p.2) / (2 * p.2)
      let ds := padLeftZeros 10 (decimalDigits (n + 1) n [])
      sign ++ String.mk (ds.take (ds.length - 9)) ++ "." ++ String.mk (ds.drop (ds.length - 9))

/-- Source function `handleConvertMistToSui`. -/
def handleConvertMistToSui (env : Env) (st : State) (args : JsVal) : Outcome :=
  match getArg env.rt args "mist" with
  | .error e => ⟨.error e, st, []⟩
  | .ok mist =>
    let sui := F64.div (mist.toNumber env.rt) F64.billion
    ⟨.ok (.obj [("mist", mist), ("sui", .num sui),
      ("formatted", .str (toFixed9 env.rt sui ++ " SUI"))]), st, []⟩

/-- Source function `handleConvertSuiToMist`. -/
def handleConvertSuiToMist (env : Env) (st : State) (args : JsVal) : Outcome :=
  match getArg env.rt args "sui" with
  | .error e => ⟨.error e, st, []⟩
  | .ok sui =>
    let mist := F64.floor (F64.mul (sui.toNumber env.rt) F64.billion)
    ⟨.ok (.obj [("sui", sui), ("mist", .str (numberToString env.rt mist)),
      ("formatted", .str (numberToString env.rt mist ++ " MIST"))]), st, []⟩

/-! ## Tool catalog -/

/-- One entry of `inputSchema.properties`. -/
structure PropSchema where
  name : String
  type : String
  enum : List String
  description : String
deriving DecidableEq, Repr

/-- One entry of the catalog `tools`; `required` is empty where the schema has no such key. -/
structure Tool where
  name : String
  description : String
  properties : List PropSchema
  required : List String
deriving DecidableEq, Repr

/-- The catalog `tools` returned by the list-tools request. -/
def tools : List Tool := [
  { name := "create_wallet",
    description := "Create a new Sui wallet with mnemonic phrase",
    properties :=
      [⟨"name", "string", [], "Name for the wallet"⟩],
    required := ["name"] },
  { name := "import_wallet",
    description := "Import an existing wallet from mnemonic or private key",
    properties :=
      [⟨"name", "string", [], "Name for the wallet"⟩,
       ⟨"mnemonic", "string", [], "Mnemonic phrase (12-24 words)"⟩,
       ⟨"privateKey", "string", [], "Private key in hex or base64 format"⟩],
    required := ["name"] },
  { name := "list_wallets",
    description := "List all created/imported wallets",
    properties := [],
    required := [] },
  { name := "get_wallet_address",
    description := "Get wallet address",
    properties :=
      [⟨"walletName", "string", [], "Name of the wallet"⟩],
    required := ["walletName"] },
  { name := "export_wallet",
    description := "Export wallet private key and mnemonic",
    properties :=
      [⟨"walletName", "string", [], "Name of the wallet"⟩],
    required := ["walletName"] },
  { name := "get_balance",
    description := "Get SUI balance for a wallet",
    properties :=
      [⟨"walletName", "string", [], "Name of the wallet"⟩,
       ⟨"coinType", "string", [], "Coin type (default: 0x2::sui::SUI)"⟩],
    required := ["walletName"] },
  { name := "get_all_balances",
    description := "Get all coin balances for a wallet",
    properties :=
      [⟨"walletName", "string", [], "Name of the wallet"⟩],
    required := ["walletName"] },
  { name := "get_objects",
    description := "Get owned objects for a wallet",
    properties :=
      [⟨"walletName", "string", [], "Name of the wallet"⟩,
       ⟨"filter", "object", [], "Object filter options"⟩,
       ⟨"limit", "number", [], "Limit number of objects returned"⟩],
    required := ["walletName"] },
  { name := "get_object_details",
    description := "Get detailed information about an object",
    properties :=
      [⟨"objectId", "string", [], "Object ID"⟩],
    required := ["objectId"] },
  { name := "transfer_sui",
    description := "Transfer SUI to another address",
    properties :=
      [⟨"fromWallet", "string", [], "Name of the sender wallet"⟩,
       ⟨"toAddress", "string", [], "Recipient address"⟩,
       ⟨"amount", "number", [], "Amount in SUI"⟩],
    required := ["fromWallet", "toAddress", "amount"] },
  { name := "transfer_object",
    description := "Transfer an object to another address",
    properties :=
      [⟨"fromWallet", "string", [], "Name of the sender wallet"⟩,
       ⟨"toAddress", "string", [], "Recipient address"⟩,
       ⟨"objectId", "string", [], "Object ID to transfer"⟩],
    required := ["fromWallet", "toAddress", "objectId"] },
  { name := "get_transaction",
    description := "Get transaction details by digest",
    properties :=
      [⟨"digest", "string", [], "Transaction digest"⟩],
    required := ["digest"] },
  { name := "get_transactions",
    description := "Get transaction history for an address",
    properties :=
      [⟨"address", "string", [], "Address to get transactions for"⟩,
       ⟨"limit", "number", [], "Limit number of transactions"⟩],
    required := ["address"] },
  { name := "get_wallet_transactions",
    description := "Get transaction history for a wallet",
    properties :=
      [⟨"walletName", "string", [], "Name of the wallet"⟩,
       ⟨"limit", "number", [], "Limit number of transactions"⟩],
    required := ["walletName"] },
  { name := "get_gas_price",
    description := "Get current gas price",
    properties := [],
    required := [] },
  { name := "request_tokens_from_faucet",
    description := "Request test SUI from faucet (testnet/devnet only)",
    properties :=
      [⟨"walletName", "string", [], "Name of the wallet"⟩],
    required := ["walletName"] },
  { name := "switch_network",
    description := "Switch Sui network",
    properties :=
      [⟨"network", "string", ["mainnet", "testnet", "devnet", "localnet"], "Network to switch to"⟩],
    required := ["network"] },
  { name := "get_network_info",
    description := "Get current network information",
    properties := [],
    required := [] },
  { name := "get_chain_id",
    description := "Get chain identifier",
    properties := [],
    required := [] },
  { name := "get_validators",
    description := "Get list of active validators",
    properties := [],
    required := [] },
  { name := "get_validator_info",
    description := "Get detailed information about a validator",
    properties :=
      [⟨"validatorAddress", "string", [], "Validator Sui address"⟩],
    required := ["validatorAddress"] },
  { name := "validate_address",
    description := "Validate if an address is a valid Sui address",
    properties :=
      [⟨"address", "string", [], "Address to validate"⟩],
    required := ["address"] },
  { name := "normalize_address",
    description := "Normalize a Sui address to full length",
    properties :=
      [⟨"address", "string", [], "Address to normalize"⟩],
    required := ["address"] },
  { name := "convert_mist_to_sui",
    description := "Convert MIST to SUI",
    properties :=
      [⟨"mist", "string", [], "Amount in MIST"⟩],
    required := ["mist"] },
  { name := "convert_sui_to_mist",
    description := "Convert SUI to MIST",
    properties :=
      [⟨"sui", "number", [], "Amount in SUI"⟩],
    required := ["sui"] }]
/-- The names of the catalog, in order. -/
def toolNames : List String := tools.map Tool.name

/-! ## Call-tool dispatcher -/

/-- The handler functions the `switch` can call. -/
inductive HandlerId where
  | createWallet
  | importWallet
  | listWallets
  | getBalance
  | getAllBalances
  | getNetworkInfo
  | switchNetwork
  | requestTokensFromFaucet
  | validateAddress
  | normalizeAddress
  | convertMistToSui
  | convertSuiToMist
deriving DecidableEq, Repr

/-- The `case` labels of the `switch`: the handler a tool name is routed to, `none` for the
`default` branch. -/
def route (name : String) : Option HandlerId :=
  if name = "create_wallet" then some .createWallet
  else if name = "import_wallet" then some .importWallet
  else if name = "list_wallets" then some .listWallets
  else if name = "get_balance" then some .getBalance
  else if name = "get_all_balances" then some .getAllBalances
  else if name = "get_network_info" then some .getNetworkInfo
  else if name = "switch_network" then some .switchNetwork
  else if name = "request_tokens_from_faucet" then some .requestTokensFromFaucet
  else if name = "validate_address" then some .validateAddress
  else if name = "normalize_address" then some .normalizeAddress
  else if name = "convert_mist_to_sui" then some .convertMistToSui
  else if name = "convert_sui_to_mist" then some .convertSuiToMist
  else none

/-- The call each `case` makes. -/
def runHandler (env : Env) (st : State) (args : JsVal) : HandlerId → Outcome
  | .createWallet => handleCreateWallet env st args
  | .importWallet => handleImportWallet env st args
  | .listWallets => handleListWallets env st
  | .getBalance => handleGetBalance env st args
  | .getAllBalances => handleGetAllBalances env st args
  | .getNetworkInfo => handleGetNetworkInfo env st
  | .switchNetwork => handleSwitchNetwork env st args
  | .requestTokensFromFaucet => handleRequestTokensFromFaucet env st args
  | .validateAddress => handleValidateAddress env st args
  | .normalizeAddress => handleNormalizeAddress env st args
  | .convertMistToSui => handleConvertMistToSui env st args
  | .convertSuiToMist => handleConvertSuiToMist env st args

/-- The value the `default` branch assigns to `result`. -/
def placeholderResult (name : String) (args : JsVal) : JsVal :=
  .obj [("message", .str ("Command '" ++ name ++ "' is recognized but not yet implemented")),
    ("args", args), ("status", .str "placeholder")]

/-- The `switch` statement: what `result` becomes, or what is thrown. -/
def dispatch (env : Env) (st : State) (name : String) (args : JsVal) : Outcome :=
  match route name with
  | some h => runHandler env st args h
  | none => ⟨.ok (placeholderResult name args), st, []⟩

/-- An item of the response's `content` array. -/
structure ContentItem where
  type : String
  text : String
deriving DecidableEq, Repr

/-- The response envelope; `isError` is `none` where the key is absent. -/
structure Response where
  content : List ContentItem
  isError : Option Bool
deriving DecidableEq, Repr

/-- The envelope returned after the `switch`. -/
def successResponse (rt : Runtime) (result : JsVal) : Response :=
  { content := [⟨"text", rt.jsonStringify result⟩], isError := none }

/-- The message part of the `catch` branch:
`error instanceof Error ? error.message : String(error)`. -/
def errorText (rt : Runtime) : Thrown → String
  | .error _ message => message
  | .value v => v.toJsString rt

/-- The envelope returned by the `catch` branch. -/
def errorResponse (rt : Runtime) (e : Thrown) : Response :=
  { content := [⟨"text", "Error: " ++ errorText rt e⟩], isError := some true }

/-- What a call-tool request leaves behind. -/
structure CallResult where
  response : Response
  state : State
  /-- The handler the `switch` called, if any. -/
  invoked : Option HandlerId
  chainCalls : List ChainCall

/-- The call-tool request handler. Its completion is `ok` when the handler returns a response
and `error` when it would reject. -/
def callTool (env : Env) (st : State) (name : String) (args : JsVal) :
    Except Thrown CallResult :=
  let out := dispatch env st name args
  match out.result with
  | .ok result =>
    .ok ⟨successResponse env.rt result, out.state, route name, out.chainCalls⟩
  | .error e =>
    .ok ⟨errorResponse env.rt e, out.state, route name, out.chainCalls⟩

/-- The `case` label under which the `switch` calls a handler. -/
def HandlerId.toolName : HandlerId → String
  | .createWallet => "create_wallet"
  | .importWallet => "import_wallet"
  | .listWallets => "list_wallets"
  | .getBalance => "get_balance"
  | .getAllBalances => "get_all_balances"
  | .getNetworkInfo => "get_network_info"
  | .switchNetwork => "switch_network"
  | .requestTokensFromFaucet => "request_tokens_from_faucet"
  | .validateAddress => "validate_address"
  | .normalizeAddress => "normalize_address"
  | .convertMistToSui => "convert_mist_to_sui"
  | .convertSuiToMist => "convert_sui_to_mist"

/-! ## A concrete environment, for examples -/

/-- An example runtime (the V8 wording of the destructuring error). -/
def exampleRuntime : Runtime where
  numberToString := fun _ => "<number>"
  stringToNumber := fun _ => F64.nan
  jsonStringify := fun v =>
    match v with
    | .obj fields => "<object " ++ String.intercalate "," (fields.map Prod.fst) ++ ">"
    | _ => "<value>"
  functionToString := "function"
  destructureMessage := fun prop v =>
    "Cannot destructure property '" ++ prop ++ "' of 'args' as it is " ++
      (match v with
       | .null => "null"
       | _ => "undefined") ++ "."

/-- An example SDK: the seed is the phrase, the key its character codes. -/
def exampleSdk : Sdk where
  getFullnodeUrl := fun n =>
    if n = "localnet" then "http://127.0.0.1:9000" else "https://fullnode." ++ n ++ ".sui.io:443"
  mnemonicToSeedHex := fun v =>
    match v with
    | .str s => .ok s
    | _ => .error (.error "TypeError" "mnemonic.normalize is not a function")
  derivePath := fun _ seedHex => .ok (seedHex.data.map Char.toNat)
  fromSecretKey := fun key => .ok ⟨key⟩
  toSuiAddress := fun kp => "0x" ++ String.mk (kp.secretKey.map fun b => digitChar (b % 8))
  fromB64 := fun _ => .error (.error "Error" "Invalid character")
  bufferFromHex := fun s => s.data.map Char.toNat
  isValidSuiAddress := fun v =>
    match v with
    | .str s => .ok (s.startsWith "0x")
    | _ => .ok false
  normalizeSuiAddress := fun v =>
    match v with
    | .str s => .ok s
    | _ => .error (.error "TypeError" "value.toLowerCase is not a function")

/-- A chain whose every request is rejected. -/
def chainDown : Chain where
  getBalance := fun _ _ _ => .rejected (.error "Error" "fetch failed")
  getAllBalances := fun _ _ => .rejected (.error "Error" "fetch failed")
  getChainIdentifier := fun _ => .rejected (.error "Error" "fetch failed")

/-- A chain that never answers within the wait. -/
def chainSilent : Chain where
  getBalance := fun _ _ _ => .pending
  getAllBalances := fun _ _ => .pending
  getChainIdentifier := fun _ => .pending

/-- An example environment with an unreachable chain. -/
def exampleEnv : Env where
  rt := exampleRuntime
  sdk := exampleSdk
  chain := chainDown
  mnemonic := "abandon ability able"

/-- A state the program reaches from its initial state: the wallet "alice" is created, then
the network is switched to "localnet". -/
def localnetState : State :=
  (dispatch exampleEnv
    (dispatch exampleEnv State.initial "create_wallet" (.obj [("name", .str "alice")])).state
    "switch_network" (.obj [("network", .str "localnet")])).state

/-! ## Routing lemmas -/

theorem route_eq_none_of_not_mem (name : String) (h : name ∉ toolNames) : route name = none := by
  simp only [toolNames, tools, List.map, List.mem_cons, List.mem_singleton, not_or,
    List.not_mem_nil, not_false_eq_true, and_true] at h
  simp [route, h]

/-! ## C1: tool names outside the catalog -/

/-- C1 (counterexample): the name "nonexistent_tool" is in no catalog entry, yet the dispatcher
answers it with a response that carries no error flag: the placeholder payload. -/
theorem unknown_tool_is_not_a_failure :
    "nonexistent_tool" ∉ toolNames ∧
    ∃ r, callTool exampleEnv State.initial "nonexistent_tool" (.obj []) = .ok r ∧
      r.response.isError ≠ some true ∧
      r.response = successResponse exampleEnv.rt (placeholderResult "nonexistent_tool" (.obj [])) :=
  ⟨by decide, _, rfl, by decide, rfl⟩

/-- C1 (amended): for every tool name outside the catalog and every arguments value the
dispatcher returns the non-error envelope of the placeholder payload
`message: "Command '<name>' is recognized but not yet implemented"`, `args`,
`status: "placeholder"`; no handler is invoked, no chain request is made, and the state
(wallet store, current network, client) is unchanged. -/
theorem callTool_unknown_name (env : Env) (st : State) (name : String) (args : JsVal)
    (h : name ∉ toolNames) :
    callTool env st name args =
      .ok ⟨⟨[⟨"text", env.rt.jsonStringify (.obj
          [("message", .str ("Command '" ++ name ++ "' is recognized but not yet implemented")),
           ("args", args), ("status", .str "placeholder")])⟩], none⟩, st, none, []⟩ := by
  simp [callTool, dispatch, route_eq_none_of_not_mem name h, successResponse, placeholderResult]

/-- C1 (witness): the amended statement at "nonexistent_tool" with absent arguments. -/
theorem callTool_unknown_name_witness :
    "nonexistent_tool" ∉ toolNames ∧
    callTool exampleEnv State.initial "nonexistent_tool" .undefined =
      .ok ⟨⟨[⟨"text", exampleEnv.rt.jsonStringify (.obj
          [("message", .str ("Command '" ++ "nonexistent_tool" ++
              "' is recognized but not yet implemented")),
           ("args", .undefined), ("status", .str "placeholder")])⟩], none⟩,
        State.initial, none, []⟩ :=
  ⟨by decide, callTool_unknown_name exampleEnv State.initial "nonexistent_tool" .undefined
    (by decide)⟩

/-! ## Lemmas on the wallet map -/

theorem sameValueZero_str_self (n : String) : (JsVal.str n).sameValueZero (.str n) = true := by
  simp [JsVal.sameValueZero]

theorem mapSet_of_mapGet_none (key : JsVal) (w : Wallet) (m : List (JsVal × Wallet))
    (h : mapGet key m = none) : mapSet key w m = m ++ [(key, w)] := by
  induction m with
  | nil => rfl
  | cons kv rest ih =>
    obtain ⟨k, v⟩ := kv
    by_cases hk : k.sameValueZero key = true
    · simp [mapGet, hk] at h
    · simp only [mapGet, hk] at h
      simp [mapSet, hk, ih h]

theorem filter_of_mapGet_none (key : JsVal) (m : List (JsVal × Wallet))
    (h : mapGet key m = none) : m.filter (fun kw => kw.1.sameValueZero key) = [] := by
  induction m with
  | nil => rfl
  | cons kv rest ih =>
    obtain ⟨k, v⟩ := kv
    by_cases hk : k.sameValueZero key = true
    · simp [mapGet, hk] at h
    · simp only [mapGet, hk] at h
      simp [List.filter, hk, ih h]

theorem mapGet_append_of_none (key : JsVal) (w : Wallet) (m : List (JsVal × Wallet))
    (h : mapGet key m = none) (hk : key.sameValueZero key = true) :
    mapGet key (m ++ [(key, w)]) = some w := by
  induction m with
  | nil => simp [mapGet, hk]
  | cons kv rest ih =>
    obtain ⟨k, v⟩ := kv
    by_cases hk2 : k.sameValueZero key = true
    · simp [mapGet, hk2] at h
    · simp only [mapGet, hk2] at h
      simp [mapGet, hk2, ih h]

theorem mapHas_eq_false_iff (key : JsVal) (m : List (JsVal × Wallet)) :
    mapHas key m = false ↔ mapGet key m = none := by
  simp [mapHas]

/-! ## Dispatcher lemmas -/

theorem callTool_of_error (env : Env) (st : State) (name : String) (args : JsVal) (e : Thrown)
    (h : (dispatch env st name args).result = .error e) :
    callTool env st name args = .ok ⟨errorResponse env.rt e, (dispatch env st name args).state,
      route name, (dispatch env st name args).chainCalls⟩ := by
  simp only [callTool, h]

theorem callTool_of_ok (env : Env) (st : State) (name : String) (args : JsVal) (v : JsVal)
    (h : (dispatch env st name args).result = .ok v) :
    callTool env st name args = .ok ⟨successResponse env.rt v, (dispatch env st name args).state,
      route name, (dispatch env st name args).chainCalls⟩ := by
  simp only [callTool, h]

theorem dispatch_create_wallet (env : Env) (st : State) (args : JsVal) :
    dispatch env st "create_wallet" args = handleCreateWallet env st args := rfl

theorem dispatch_import_wallet (env : Env) (st : State) (args : JsVal) :
    dispatch env st "import_wallet" args = handleImportWallet env st args := rfl

theorem handleCreateWallet_conflict (env : Env) (st : State) (n : String)
    (fields : List (String × JsVal)) (hname : fields.lookup "name" = some (.str n))
    (hhas : mapHas (.str n) st.wallets = true) :
    handleCreateWallet env st (.obj fields) =
      ⟨.error (.error "Error" ("Wallet with name '" ++ n ++ "' already exists")), st, []⟩ := by
  simp [handleCreateWallet, getArg, hname, hhas, JsVal.toJsString]

theorem handleImportWallet_conflict (env : Env) (st : State) (n : String)
    (fields : List (String × JsVal)) (hname : fields.lookup "name" = some (.str n))
    (hhas : mapHas (.str n) st.wallets = true) :
    handleImportWallet env st (.obj fields) =
      ⟨.error (.error "Error" ("Wallet with name '" ++ n ++ "' already exists")), st, []⟩ := by
  simp [handleImportWallet, getArg, hname, hhas, JsVal.toJsString]

theorem handleCreateWallet_fresh (env : Env) (st : State) (name : JsVal)
    (fields : List (String × JsVal)) (kp : Keypair)
    (hname : (fields.lookup "name").getD .undefined = name)
    (hhas : mapHas name st.wallets = false)
    (hkp : deriveKeypair env (.str env.mnemonic) = .ok kp) :
    handleCreateWallet env st (.obj fields) =
      ⟨.ok (.obj [("success", .bool true),
          ("wallet", .obj [("name", name), ("address", .str (env.sdk.toSuiAddress kp)),
            ("mnemonic", .str env.mnemonic)])]),
        { st with wallets := mapSet name ⟨kp, name, .str env.mnemonic⟩ st.wallets }, []⟩ := by
  simp [handleCreateWallet, getArg, hname, hhas, hkp]

/-! ## C3: name conflicts -/

/-- C3: if the wallet store has an entry under the name `n`, then `create_wallet` and
`import_wallet` called with name `n` both throw the error whose message is
"Wallet with name 'n' already exists", the dispatcher answers with the error envelope, and the
state (the wallet store in particular) is exactly as before. And if the store has no entry under
`n` and a first `create_wallet` for `n` succeeds, a second one is refused in the same way and
the store then holds exactly one entry under `n`, the one the first call made. -/
theorem wallet_name_conflict :
    (∀ (env : Env) (st : State) (n : String) (fields : List (String × JsVal)),
      fields.lookup "name" = some (.str n) → mapHas (.str n) st.wallets = true →
      ∀ tool ∈ ["create_wallet", "import_wallet"],
        (dispatch env st tool (.obj fields)).result =
            .error (.error "Error" ("Wallet with name '" ++ n ++ "' already exists")) ∧
        (dispatch env st tool (.obj fields)).state = st ∧
        ∃ r, callTool env st tool (.obj fields) = .ok r ∧ r.response.isError = some true ∧
          r.state = st) ∧
    (∀ (env1 env2 : Env) (st : State) (n : String) (fields1 fields2 : List (String × JsVal))
        (kp : Keypair),
      fields1.lookup "name" = some (.str n) → fields2.lookup "name" = some (.str n) →
      mapHas (.str n) st.wallets = false →
      deriveKeypair env1 (.str env1.mnemonic) = .ok kp →
      let first := dispatch env1 st "create_wallet" (.obj fields1)
      let second := dispatch env2 first.state "create_wallet" (.obj fields2)
      second.result =
          .error (.error "Error" ("Wallet with name '" ++ n ++ "' already exists")) ∧
      second.state.wallets = st.wallets ++ [(.str n, ⟨kp, .str n, .str env1.mnemonic⟩)] ∧
      (second.state.wallets.filter (fun kw => kw.1.sameValueZero (.str n))).length = 1 ∧
      mapGet (.str n) second.state.wallets = some ⟨kp, .str n, .str env1.mnemonic⟩) := by
  refine ⟨?_, ?_⟩
  · intro env st n fields hname hhas tool htool
    simp only [List.mem_cons, List.mem_singleton, List.not_mem_nil, or_false] at htool
    rcases htool with rfl | rfl
    · have hd := handleCreateWallet_conflict env st n fields hname hhas
      rw [← dispatch_create_wallet] at hd
      refine ⟨by rw [hd], by rw [hd], _, callTool_of_error _ _ _ _ _ (by rw [hd]), rfl, ?_⟩
      simp [hd]
    · have hd := handleImportWallet_conflict env st n fields hname hhas
      rw [← dispatch_import_wallet] at hd
      refine ⟨by rw [hd], by rw [hd], _, callTool_of_error _ _ _ _ _ (by rw [hd]), rfl, ?_⟩
      simp [hd]
  · intro env1 env2 st n fields1 fields2 kp h1 h2 hhas hkp
    have hnone : mapGet (.str n) st.wallets = none := (mapHas_eq_false_iff _ _).1 hhas
    have hset := mapSet_of_mapGet_none (.str n) ⟨kp, .str n, .str env1.mnemonic⟩ st.wallets hnone
    have hget := mapGet_append_of_none (.str n) ⟨kp, .str n, .str env1.mnemonic⟩ st.wallets
      hnone (sameValueZero_str_self n)
    have hfirst := handleCreateWallet_fresh env1 st (.str n) fields1 kp (by simp [h1]) hhas hkp
    rw [hset] at hfirst
    have hsecond := handleCreateWallet_conflict env2
      { st with wallets := st.wallets ++ [(.str n, ⟨kp, .str n, .str env1.mnemonic⟩)] }
      n fields2 h2 (by simp [mapHas, hget])
    simp only [dispatch_create_wallet, hfirst, hsecond]
    refine ⟨trivial, trivial, ?_, hget⟩
    simp [List.filter_append, filter_of_mapGet_none _ _ hnone, List.filter,
      sameValueZero_str_self]

/-- C3 (witness): a store holding "alice"; both tools refuse the name, and a repeated
`create_wallet` for the fresh name "bob" leaves one entry. -/
theorem wallet_name_conflict_witness :
    ((dispatch exampleEnv
        { State.initial with wallets := [(.str "alice", ⟨⟨[1]⟩, .str "alice", .undefined⟩)] }
        "import_wallet" (.obj [("name", .str "alice"), ("mnemonic", .str "x")])).result =
      .error (.error "Error" ("Wallet with name '" ++ "alice" ++ "' already exists"))) ∧
    ((dispatch exampleEnv (dispatch exampleEnv State.initial "create_wallet"
        (.obj [("name", .str "bob")])).state "create_wallet"
        (.obj [("name", .str "bob")])).state.wallets.filter
          (fun kw => kw.1.sameValueZero (.str "bob"))).length = 1 :=
  ⟨(wallet_name_conflict.1 exampleEnv
      { State.initial with wallets := [(.str "alice", ⟨⟨[1]⟩, .str "alice", .undefined⟩)] }
      "alice" [("name", .str "alice"), ("mnemonic", .str "x")] rfl rfl
      "import_wallet" (by decide)).1,
   (wallet_name_conflict.2 exampleEnv exampleEnv State.initial "bob"
      [("name", .str "bob")] [("name", .str "bob")]
      ⟨"abandon ability able".data.map Char.toNat⟩ rfl rfl rfl rfl).2.2.1⟩

/-! ## C4: the dispatcher always answers -/

/-- C4: for every tool name and every arguments value (absent arguments included) the
call-tool handler completes normally with exactly one response envelope holding exactly one
content item; whatever the handler throws, a failed destructuring of absent arguments
included, comes back as the error envelope built from the thrown value. -/
theorem callTool_always_returns (env : Env) (st : State) (name : String) (args : JsVal) :
    ∃ r, callTool env st name args = .ok r ∧ r.response.content.length = 1 ∧
      (∀ e, (dispatch env st name args).result = .error e →
        r.response = ⟨[⟨"text", "Error: " ++ errorText env.rt e⟩], some true⟩) ∧
      (∀ v, (dispatch env st name args).result = .ok v →
        r.response = ⟨[⟨"text", env.rt.jsonStringify v⟩], none⟩) := by
  cases h : (dispatch env st name args).result with
  | error e =>
    refine ⟨_, callTool_of_error env st name args e h, rfl, ?_, ?_⟩
    · intro e2 he
      cases he
      rfl
    · intro v hv
      cases hv
  | ok v =>
    refine ⟨_, callTool_of_ok env st name args v h, rfl, ?_, ?_⟩
    · intro e2 he
      cases he
    · intro v2 hv
      cases hv
      rfl

/-! ## C5: the text of an error response -/

/-- C5 (counterexample): `get_balance` for the unknown wallet "w" throws the error whose message
is "Wallet 'w' not found"; the text of the response is "Error: Wallet 'w' not found", not the
message alone. -/
theorem error_text_is_not_verbatim :
    (dispatch exampleEnv State.initial "get_balance" (.obj [("walletName", .str "w")])).result =
      .error (.error "Error" "Wallet 'w' not found") ∧
    ∃ r, callTool exampleEnv State.initial "get_balance" (.obj [("walletName", .str "w")]) =
        .ok r ∧
      r.response.content = [⟨"text", "Error: Wallet 'w' not found"⟩] ∧
      r.response.content ≠ [⟨"text", "Wallet 'w' not found"⟩] :=
  ⟨rfl, _, rfl, by decide, by decide⟩

/-- C5 (amended): whenever the handler a call is routed to throws an `Error` whose message is
`m`, the response has `isError = true` and a single text item whose text is "Error: " followed
by `m` verbatim. -/
theorem callTool_handler_error (env : Env) (st : State) (name : String) (args : JsVal)
    (errName m : String) (h : (dispatch env st name args).result = .error (.error errName m)) :
    ∃ r, callTool env st name args = .ok r ∧
      r.response = ⟨[⟨"text", "Error: " ++ m⟩], some true⟩ :=
  ⟨_, callTool_of_error env st name args _ h, rfl⟩

/-- C5 (witness): the amended statement at `get_balance` for the unknown wallet "w". -/
theorem callTool_handler_error_witness :
    ∃ r, callTool exampleEnv State.initial "get_balance" (.obj [("walletName", .str "w")]) =
        .ok r ∧
      r.response = ⟨[⟨"text", "Error: " ++ "Wallet 'w' not found"⟩], some true⟩ :=
  callTool_handler_error exampleEnv State.initial "get_balance"
    (.obj [("walletName", .str "w")]) "Error" "Wallet 'w' not found" rfl

/-! ## C9: catalog and routing -/

theorem ite_some_cases {c : Prop} [Decidable c] {x h : HandlerId} {rest : Option HandlerId}
    (hr : (if c then some x else rest) = some h) : (c ∧ x = h) ∨ (¬c ∧ rest = some h) := by
  by_cases hc : c
  · rw [if_pos hc] at hr
    exact Or.inl ⟨hc, Option.some.inj hr⟩
  · rw [if_neg hc] at hr
    exact Or.inr ⟨hc, hr⟩

theorem route_eq_some_iff (name : String) (h : HandlerId) :
    route name = some h ↔ name = h.toolName := by
  constructor
  · intro hr
    unfold route at hr
    rcases ite_some_cases hr with ⟨hc, rfl⟩ | ⟨-, hr⟩
    · exact hc
    rcases ite_some_cases hr with ⟨hc, rfl⟩ | ⟨-, hr⟩
    · exact hc
    rcases ite_some_cases hr with ⟨hc, rfl⟩ | ⟨-, hr⟩
    · exact hc
    rcases ite_some_cases hr with ⟨hc, rfl⟩ | ⟨-, hr⟩
    · exact hc
    rcases ite_some_cases hr with ⟨hc, rfl⟩ | ⟨-, hr⟩
    · exact hc
    rcases ite_some_cases hr with ⟨hc, rfl⟩ | ⟨-, hr⟩
    · exact hc
    rcases ite_some_cases hr with ⟨hc, rfl⟩ | ⟨-, hr⟩
    · exact hc
    rcases ite_some_cases hr with ⟨hc, rfl⟩ | ⟨-, hr⟩
    · exact hc
    rcases ite_some_cases hr with ⟨hc, rfl⟩ | ⟨-, hr⟩
    · exact hc
    rcases ite_some_cases hr with ⟨hc, rfl⟩ | ⟨-, hr⟩
    · exact hc
    rcases ite_some_cases hr with ⟨hc, rfl⟩ | ⟨-, hr⟩
    · exact hc
    rcases ite_some_cases hr with ⟨hc, rfl⟩ | ⟨-, hr⟩
    · exact hc
    cases hr
  · rintro rfl
    cases h <;> decide

/-- C9 (counterexample): "get_wallet_address" is a catalog name, but the dispatcher has no case
for it: calling it yields the generic placeholder payload. -/
theorem catalog_tool_without_handler :
    "get_wallet_address" ∈ toolNames ∧ route "get_wallet_address" = none ∧
    (dispatch exampleEnv State.initial "get_wallet_address"
        (.obj [("walletName", .str "w")])).result =
      .ok (placeholderResult "get_wallet_address" (.obj [("walletName", .str "w")])) :=
  ⟨by decide, by decide, rfl⟩

/-- C9 (amended): the catalog has 25 entries with pairwise different names; every name the
dispatcher routes to a handler is a catalog name, and different routed names have different
handlers; exactly twelve catalog names are routed to a handler, and the other thirteen fall
through to the placeholder branch. -/
theorem catalog_and_routes :
    toolNames.Nodup ∧ toolNames.length = 25 ∧
    (∀ name h, route name = some h → name ∈ toolNames) ∧
    (∀ name₁ name₂ h, route name₁ = some h → route name₂ = some h → name₁ = name₂) ∧
    (∀ name ∈ toolNames, (route name).isSome = true ↔
      name ∈ ["create_wallet", "import_wallet", "list_wallets", "get_balance",
        "get_all_balances", "get_network_info", "switch_network",
        "request_tokens_from_faucet", "validate_address", "normalize_address",
        "convert_mist_to_sui", "convert_sui_to_mist"]) ∧
    (∀ name ∈ toolNames, route name = none ↔
      name ∈ ["get_wallet_address", "export_wallet", "get_objects", "get_object_details",
        "transfer_sui", "transfer_object", "get_transaction", "get_transactions",
        "get_wallet_transactions", "get_gas_price", "get_chain_id", "get_validators",
        "get_validator_info"]) := by
  refine ⟨by decide, by decide, ?_, ?_, by decide, by decide⟩
  · intro name h hr
    rw [(route_eq_some_iff name h).1 hr]
    cases h <;> decide
  · intro n1 n2 h h1 h2
    rw [(route_eq_some_iff n1 h).1 h1, (route_eq_some_iff n2 h).1 h2]

/-! ## C10: failures of the chain client -/

theorem handleGetBalance_chain_error (env : Env) (st : State) (fields : List (String × JsVal))
    (wallet : Wallet) (e : Thrown)
    (hw : mapGet ((fields.lookup "walletName").getD .undefined) st.wallets = some wallet)
    (hb : ∀ url owner coinType, withTimeout (env.chain.getBalance url owner coinType) = .error e) :
    ∃ coinType, handleGetBalance env st (.obj fields) =
      ⟨.error e, ensureClient env st,
        [.getBalance (ensureClient env st).clientUrl (env.sdk.toSuiAddress wallet.keypair)
          coinType]⟩ := by
  refine ⟨match (fields.lookup "coinType").getD .undefined with
    | .undefined => JsVal.str "0x2::sui::SUI"
    | v => v, ?_⟩
  simp only [handleGetBalance, getArg, hw, hb]

theorem handleGetAllBalances_chain_error (env : Env) (st : State)
    (fields : List (String × JsVal)) (wallet : Wallet) (e : Thrown)
    (hw : mapGet ((fields.lookup "walletName").getD .undefined) st.wallets = some wallet)
    (ha : ∀ url owner, withTimeout (env.chain.getAllBalances url owner) = .error e) :
    handleGetAllBalances env st (.obj fields) =
      ⟨.error e, ensureClient env st,
        [.getAllBalances (ensureClient env st).clientUrl
          (env.sdk.toSuiAddress wallet.keypair)]⟩ := by
  simp only [handleGetAllBalances, getArg, hw, ha]

theorem handleGetNetworkInfo_chain_error (env : Env) (st : State) (e : Thrown)
    (hc : ∀ url, withTimeout (env.chain.getChainIdentifier url) = .error e) :
    handleGetNetworkInfo env st =
      ⟨.ok (.obj [("network", (ensureClient env st).currentNetwork),
          ("rpcUrl", networksGet env (ensureClient env st).currentNetwork),
          ("error", .str "Failed to fetch network details")]),
        ensureClient env st, [.getChainIdentifier (ensureClient env st).clientUrl]⟩ := by
  simp only [handleGetNetworkInfo, hc]

/-- C10 (counterexample): with a chain client that rejects every request, `get_network_info`
in the initial state answers with a response that has no error flag; its payload only
carries the fixed text "Failed to fetch network details". -/
theorem network_info_hides_chain_error :
    (∀ url, withTimeout (exampleEnv.chain.getChainIdentifier url) =
      .error (.error "Error" "fetch failed")) ∧
    ∃ r, callTool exampleEnv State.initial "get_network_info" (.obj []) = .ok r ∧
      r.response.isError ≠ some true ∧
      r.response = successResponse exampleEnv.rt (.obj [("network", .str "devnet"),
        ("rpcUrl", .str "https://fullnode.devnet.sui.io:443"),
        ("error", .str "Failed to fetch network details")]) :=
  ⟨fun _ => rfl, _, rfl, by decide, rfl⟩

/-- C10 (amended): let every request to the chain client fail with the thrown value `e`
(a rejection, or the 'Operation timed out' error of the timeout wrapper). Then `get_balance`
and `get_all_balances`, called for a wallet that exists, return the error envelope
(`isError = true`, text "Error: " followed by the description of `e`) after exactly one request
to the chain client; `get_network_info` also makes exactly one request but catches the failure
itself and returns a response without error flag whose payload holds the network, its URL and
`error: "Failed to fetch network details"` in place of the description of `e`. -/
theorem chain_failure_responses (env : Env) (st : State) (fields : List (String × JsVal))
    (args : JsVal) (wallet : Wallet) (e : Thrown)
    (hw : mapGet ((fields.lookup "walletName").getD .undefined) st.wallets = some wallet)
    (hb : ∀ url owner coinType, withTimeout (env.chain.getBalance url owner coinType) = .error e)
    (ha : ∀ url owner, withTimeout (env.chain.getAllBalances url owner) = .error e)
    (hc : ∀ url, withTimeout (env.chain.getChainIdentifier url) = .error e) :
    (∃ r, callTool env st "get_balance" (.obj fields) = .ok r ∧
      r.response = ⟨[⟨"text", "Error: " ++ errorText env.rt e⟩], some true⟩ ∧
      r.chainCalls.length = 1) ∧
    (∃ r, callTool env st "get_all_balances" (.obj fields) = .ok r ∧
      r.response = ⟨[⟨"text", "Error: " ++ errorText env.rt e⟩], some true⟩ ∧
      r.chainCalls.length = 1) ∧
    (∃ r, callTool env st "get_network_info" args = .ok r ∧
      r.response = ⟨[⟨"text", env.rt.jsonStringify (.obj
          [("network", (ensureClient env st).currentNetwork),
           ("rpcUrl", networksGet env (ensureClient env st).currentNetwork),
           ("error", .str "Failed to fetch network details")])⟩], none⟩ ∧
      r.chainCalls.length = 1) := by
  obtain ⟨coinType, h1⟩ := handleGetBalance_chain_error env st fields wallet e hw hb
  have h2 := handleGetAllBalances_chain_error env st fields wallet e hw ha
  have h3 := handleGetNetworkInfo_chain_error env st e hc
  have d1 : dispatch env st "get_balance" (.obj fields) = handleGetBalance env st (.obj fields) :=
    rfl
  have d2 : dispatch env st "get_all_balances" (.obj fields) =
      handleGetAllBalances env st (.obj fields) := rfl
  have d3 : dispatch env st "get_network_info" args = handleGetNetworkInfo env st := rfl
  refine ⟨⟨_, callTool_of_error env st _ _ e (by rw [d1, h1]), rfl, by rw [d1, h1]; rfl⟩,
    ⟨_, callTool_of_error env st _ _ e (by rw [d2, h2]), rfl, by rw [d2, h2]; rfl⟩,
    ⟨_, callTool_of_ok env st _ _ _ (by rw [d3, h3]), rfl, by rw [d3, h3]; rfl⟩⟩

/-- C10 (witness): a chain that never answers in time, and the wallet "alice": the text of the
`get_balance` response is "Error: Operation timed out". -/
theorem chain_failure_responses_witness :
    ∃ r, callTool { exampleEnv with chain := chainSilent }
        { State.initial with wallets := [(.str "alice", ⟨⟨[1]⟩, .str "alice", .undefined⟩)] }
        "get_balance" (.obj [("walletName", .str "alice")]) = .ok r ∧
      r.response = ⟨[⟨"text", "Error: " ++ "Operation timed out"⟩], some true⟩ ∧
      r.chainCalls.length = 1 :=
  (chain_failure_responses { exampleEnv with chain := chainSilent }
    { State.initial with wallets := [(.str "alice", ⟨⟨[1]⟩, .str "alice", .undefined⟩)] }
    [("walletName", .str "alice")] .undefined ⟨⟨[1]⟩, .str "alice", .undefined⟩
    (.error "Error" "Operation timed out") rfl (fun _ _ _ => rfl) (fun _ _ => rfl)
    (fun _ => rfl)).1

/-! ## C2: arguments that omit a required field -/

theorem ensureClient_wallets (env : Env) (st : State) :
    (ensureClient env st).wallets = st.wallets := by
  unfold ensureClient initializeClient
  split <;> rfl

theorem runHandler_error_wallets (env : Env) (st : State) (args : JsVal) (h : HandlerId)
    (e : Thrown) (he : (runHandler env st args h).result = .error e) :
    (runHandler env st args h).state.wallets = st.wallets := by
  cases h
  case listWallets => rfl
  case createWallet =>
    simp only [runHandler, handleCreateWallet] at he ⊢
    repeat' split
    all_goals simp_all
  case importWallet =>
    simp only [runHandler, handleImportWallet] at he ⊢
    repeat' split
    all_goals simp_all
  case getBalance =>
    simp only [runHandler, handleGetBalance] at he ⊢
    repeat' split
    all_goals simp_all [ensureClient_wallets]
  case getAllBalances =>
    simp only [runHandler, handleGetAllBalances] at he ⊢
    repeat' split
    all_goals simp_all [ensureClient_wallets]
  case getNetworkInfo =>
    simp only [runHandler, handleGetNetworkInfo] at he ⊢
    repeat' split
    all_goals simp_all [ensureClient_wallets]
  case switchNetwork =>
    simp only [runHandler, handleSwitchNetwork] at he ⊢
    repeat' split
    all_goals simp_all
  case requestTokensFromFaucet =>
    simp only [runHandler, handleRequestTokensFromFaucet] at he ⊢
    repeat' split
    all_goals simp_all
  case validateAddress =>
    simp only [runHandler, handleValidateAddress] at he ⊢
    repeat' split
    all_goals simp_all
  case normalizeAddress =>
    simp only [runHandler, handleNormalizeAddress] at he ⊢
    repeat' split
    all_goals simp_all
  case convertMistToSui =>
    simp only [runHandler, handleConvertMistToSui] at he ⊢
    repeat' split
    all_goals simp_all
  case convertSuiToMist =>
    simp only [runHandler, handleConvertSuiToMist] at he ⊢
    repeat' split
    all_goals simp_all
theorem runHandler_error_state (env : Env) (st : State) (args : JsVal) (h : HandlerId)
    (e : Thrown) (h1 : h ≠ .getBalance) (h2 : h ≠ .getAllBalances)
    (he : (runHandler env st args h).result = .error e) :
    (runHandler env st args h).state = st := by
  cases h
  case listWallets => rfl
  case getBalance => exact absurd rfl h1
  case getAllBalances => exact absurd rfl h2
  case createWallet =>
    simp only [runHandler, handleCreateWallet] at he ⊢
    repeat' split
    all_goals simp_all
  case importWallet =>
    simp only [runHandler, handleImportWallet] at he ⊢
    repeat' split
    all_goals simp_all
  case getNetworkInfo =>
    simp only [runHandler, handleGetNetworkInfo] at he ⊢
    repeat' split
    all_goals simp_all
  case switchNetwork =>
    simp only [runHandler, handleSwitchNetwork] at he ⊢
    repeat' split
    all_goals simp_all
  case requestTokensFromFaucet =>
    simp only [runHandler, handleRequestTokensFromFaucet] at he ⊢
    repeat' split
    all_goals simp_all
  case validateAddress =>
    simp only [runHandler, handleValidateAddress] at he ⊢
    repeat' split
    all_goals simp_all
  case normalizeAddress =>
    simp only [runHandler, handleNormalizeAddress] at he ⊢
    repeat' split
    all_goals simp_all
  case convertMistToSui =>
    simp only [runHandler, handleConvertMistToSui] at he ⊢
    repeat' split
    all_goals simp_all
  case convertSuiToMist =>
    simp only [runHandler, handleConvertSuiToMist] at he ⊢
    repeat' split
    all_goals simp_all
theorem dispatch_error_wallets (env : Env) (st : State) (name : String) (args : JsVal)
    (e : Thrown) (he : (dispatch env st name args).result = .error e) :
    (dispatch env st name args).state.wallets = st.wallets := by
  unfold dispatch at he ⊢
  cases hr : route name with
  | none => simp [hr] at he
  | some h =>
    simp only [hr] at he ⊢
    exact runHandler_error_wallets env st args h e he

theorem dispatch_error_state (env : Env) (st : State) (name : String) (args : JsVal)
    (e : Thrown) (h1 : route name ≠ some .getBalance) (h2 : route name ≠ some .getAllBalances)
    (he : (dispatch env st name args).result = .error e) :
    (dispatch env st name args).state = st := by
  unfold dispatch at he ⊢
  cases hr : route name with
  | none => simp [hr] at he
  | some h =>
    simp only [hr] at he ⊢
    exact runHandler_error_state env st args h e (fun hh => h1 (by rw [hr, hh]))
      (fun hh => h2 (by rw [hr, hh])) he

theorem dispatch_missing_wallet_or_network (env : Env) (st : State)
    (fields : List (String × JsVal)) (hundef : mapGet .undefined st.wallets = none) :
    (fields.lookup "walletName" = none →
      (∃ e, dispatch env st "get_balance" (.obj fields) = ⟨.error e, st, []⟩) ∧
      (∃ e, dispatch env st "get_all_balances" (.obj fields) = ⟨.error e, st, []⟩) ∧
      (∃ e, dispatch env st "request_tokens_from_faucet" (.obj fields) = ⟨.error e, st, []⟩)) ∧
    (fields.lookup "network" = none →
      ∃ e, dispatch env st "switch_network" (.obj fields) = ⟨.error e, st, []⟩) := by
  refine ⟨fun hmiss => ⟨?_, ?_, ?_⟩, fun hmiss => ?_⟩
  · show ∃ e, handleGetBalance env st (.obj fields) = _
    simp only [handleGetBalance, getArg, hmiss, Option.getD_none, hundef]
    exact ⟨_, rfl⟩
  · show ∃ e, handleGetAllBalances env st (.obj fields) = _
    simp only [handleGetAllBalances, getArg, hmiss, Option.getD_none, hundef]
    exact ⟨_, rfl⟩
  · show ∃ e, handleRequestTokensFromFaucet env st (.obj fields) = _
    simp only [handleRequestTokensFromFaucet, getArg, hmiss, Option.getD_none, hundef]
    split
    · exact ⟨_, rfl⟩
    · exact ⟨_, rfl⟩
  · show ∃ e, handleSwitchNetwork env st (.obj fields) = _
    have hk : networksGet env .undefined = .undefined := by
      simp [networksGet, JsVal.toJsString, networkNames, objectPrototypeKeys]
    simp only [handleSwitchNetwork, getArg, hmiss, Option.getD_none, hk, JsVal.truthy]
    exact ⟨_, rfl⟩

theorem required_field_of_tool :
    ∀ tool ∈ tools, ∀ field ∈ tool.required,
      (tool.name ∈ ["get_balance", "get_all_balances", "request_tokens_from_faucet"] →
        field = "walletName") ∧
      (tool.name = "switch_network" → field = "network") ∧
      (tool.name = "create_wallet" → field = "name") := by
  decide

/-- C2 (counterexample): `create_wallet` called with the empty arguments object in the initial
state is not refused: the response has no error flag and the wallet store, empty before, holds
one wallet afterwards, stored under the key `undefined`. -/
theorem create_wallet_without_name_succeeds :
    "name" ∈ ["name"] ∧ List.lookup "name" ([] : List (String × JsVal)) = none ∧
    State.initial.wallets.length = 0 ∧
    ∃ r, callTool exampleEnv State.initial "create_wallet" (.obj []) = .ok r ∧
      r.response.isError = none ∧ r.state.wallets.length = 1 ∧
      (mapGet .undefined r.state.wallets).isSome = true :=
  ⟨by decide, rfl, rfl, _, rfl, rfl, rfl, rfl⟩

/-- C2 (amended): the dispatcher does not validate arguments. For every catalog tool and every
arguments object that omits one of the tool's required fields, the call is routed exactly as
any other call (the handler, if the tool has one, runs and reads the missing field as
`undefined`), and whenever the response is a Failure the wallet store is unchanged. If moreover
no wallet is stored under the key `undefined`, then a Failure leaves the whole state
unchanged, and `get_balance`, `get_all_balances`, `request_tokens_from_faucet` and
`switch_network` do return a Failure. -/
theorem missing_required_field (env : Env) (st : State) (tool : Tool) (field : String)
    (fields : List (String × JsVal)) (htool : tool ∈ tools) (hreq : field ∈ tool.required)
    (hmiss : fields.lookup field = none) :
    ∃ r, callTool env st tool.name (.obj fields) = .ok r ∧
      r.invoked = route tool.name ∧
      (r.response.isError = some true → r.state.wallets = st.wallets) ∧
      (mapGet .undefined st.wallets = none →
        (r.response.isError = some true → r.state = st) ∧
        (tool.name ∈ ["get_balance", "get_all_balances", "request_tokens_from_faucet",
            "switch_network"] → r.response.isError = some true ∧ r.state = st)) := by
  obtain ⟨hw, hn, -⟩ := required_field_of_tool tool htool field hreq
  have four : mapGet .undefined st.wallets = none →
      tool.name ∈ ["get_balance", "get_all_balances", "request_tokens_from_faucet",
        "switch_network"] →
      ∃ e, dispatch env st tool.name (.obj fields) = ⟨.error e, st, []⟩ := by
    intro hundef hmem
    have hd := dispatch_missing_wallet_or_network env st fields hundef
    simp only [List.mem_cons, List.mem_singleton, List.not_mem_nil, or_false] at hmem hw
    rcases hmem with h | h | h | h
    · rw [h]; exact (hd.1 (by rw [← hw (Or.inl h)]; exact hmiss)).1
    · rw [h]; exact (hd.1 (by rw [← hw (Or.inr (Or.inl h))]; exact hmiss)).2.1
    · rw [h]; exact (hd.1 (by rw [← hw (Or.inr (Or.inr h))]; exact hmiss)).2.2
    · rw [h]; exact hd.2 (by rw [← hn h]; exact hmiss)
  cases hres : (dispatch env st tool.name (.obj fields)).result with
  | ok v =>
    refine ⟨_, callTool_of_ok env st _ _ v hres, rfl, ?_, ?_⟩
    · intro h; cases h
    · intro hundef
      refine ⟨(fun h => nomatch h), fun hmem => ?_⟩
      obtain ⟨e, he⟩ := four hundef hmem
      rw [he] at hres
      cases hres
  | error e =>
    refine ⟨_, callTool_of_error env st _ _ e hres, rfl, ?_, ?_⟩
    · intro _
      exact dispatch_error_wallets env st _ _ e hres
    · intro hundef
      have hstate : (dispatch env st tool.name (.obj fields)).state = st := by
        by_cases hmem : tool.name ∈ ["get_balance", "get_all_balances",
            "request_tokens_from_faucet", "switch_network"]
        · obtain ⟨e2, he2⟩ := four hundef hmem
          rw [he2]
        · simp only [List.mem_cons, List.mem_singleton, List.not_mem_nil, or_false,
            not_or] at hmem
          refine dispatch_error_state env st _ _ e ?_ ?_ hres
          · intro hr
            exact hmem.1 ((route_eq_some_iff _ _).1 hr)
          · intro hr
            exact hmem.2.1 ((route_eq_some_iff _ _).1 hr)
      exact ⟨fun _ => hstate, fun _ => ⟨rfl, hstate⟩⟩

/-- C2 (witness): `switch_network` called with the empty arguments object in the initial
state. -/
theorem missing_required_field_witness :
    ∃ r, callTool exampleEnv State.initial "switch_network" (.obj []) = .ok r ∧
      r.invoked = route "switch_network" ∧
      (r.response.isError = some true → r.state.wallets = State.initial.wallets) ∧
      (mapGet .undefined State.initial.wallets = none →
        (r.response.isError = some true → r.state = State.initial) ∧
        ("switch_network" ∈ ["get_balance", "get_all_balances", "request_tokens_from_faucet",
            "switch_network"] → r.response.isError = some true ∧ r.state = State.initial)) :=
  missing_required_field exampleEnv State.initial
    { name := "switch_network",
      description := "Switch Sui network",
      properties :=
        [⟨"network", "string", ["mainnet", "testnet", "devnet", "localnet"],
          "Network to switch to"⟩],
      required := ["network"] }
    "network" [] (by decide) (by decide) rfl

/-! ## Rounding lemmas -/

theorem log2Fuel_spec : ∀ (fuel n : Nat), 0 < n → n ≤ fuel →
    2 ^ log2Fuel fuel n ≤ n ∧ n < 2 ^ (log2Fuel fuel n + 1)
  | 0, n, hn, hf => by omega
  | fuel + 1, n, hn, hf => by
    unfold log2Fuel
    split
    · simp
      omega
    · have ih := log2Fuel_spec fuel (n / 2) (by omega) (by omega)
      rw [pow_succ, pow_succ 2 (log2Fuel fuel (n / 2) + 1)]
      constructor <;> omega

theorem ilog2_spec (n : Nat) (hn : 0 < n) : 2 ^ ilog2 n ≤ n ∧ n < 2 ^ (ilog2 n + 1) :=
  log2Fuel_spec n n hn le_rfl

theorem scalePair_pos (a b : Nat) (e : Int) (ha : 0 < a) (hb : 0 < b) :
    0 < (scalePair a b e).1 ∧ 0 < (scalePair a b e).2 := by
  unfold scalePair
  split <;> simp <;> exact ⟨ha, hb⟩

theorem scalePair_ratio (a b : Nat) (e : Int) (hb : 0 < b) :
    ((scalePair a b e).1 : ℚ) / ((scalePair a b e).2 : ℚ) = (a : ℚ) / b / (2 : ℚ) ^ e := by
  have hb' : (b : ℚ) ≠ 0 := by positivity
  unfold scalePair
  split
  · rename_i h
    obtain ⟨k, rfl⟩ := Int.eq_ofNat_of_zero_le h
    simp only [Int.toNat_ofNat, Nat.cast_mul, Nat.cast_pow, Nat.cast_ofNat, zpow_natCast]
    rw [div_div]
  · rename_i h
    obtain ⟨k, rfl⟩ : ∃ k : ℕ, e = -(k : ℤ) := ⟨(-e).toNat, by omega⟩
    simp only [neg_neg, Int.toNat_ofNat, Nat.cast_mul, Nat.cast_pow, Nat.cast_ofNat, zpow_neg,
      zpow_natCast]
    field_simp

theorem floorLog2_spec (a b : Nat) (ha : 0 < a) (hb : 0 < b) :
    (2 : ℚ) ^ floorLog2 a b ≤ (a : ℚ) / b ∧ (a : ℚ) / b < (2 : ℚ) ^ (floorLog2 a b + 1) := by
  obtain ⟨ha1, ha2⟩ := ilog2_spec a ha
  obtain ⟨hb1, hb2⟩ := ilog2_spec b hb
  have hbq : (0 : ℚ) < b := by exact_mod_cast hb
  have ha1q : (2 : ℚ) ^ (ilog2 a) ≤ a := by exact_mod_cast ha1
  have ha2q : (a : ℚ) < 2 ^ (ilog2 a + 1) := by exact_mod_cast ha2
  have hb1q : (2 : ℚ) ^ (ilog2 b) ≤ b := by exact_mod_cast hb1
  have hb2q : (b : ℚ) < 2 ^ (ilog2 b + 1) := by exact_mod_cast hb2
  have hpos : ∀ z : ℤ, (0 : ℚ) < 2 ^ z := fun z => zpow_pos (by norm_num) z
  have key : ∀ z : ℤ, (2 : ℚ) ^ z ≤ a / b ↔ (2 : ℚ) ^ z * b ≤ a := fun z => le_div_iff₀ hbq
  have key2 : ∀ z : ℤ, (a : ℚ) / b < 2 ^ z ↔ (a : ℚ) < 2 ^ z * b := fun z => div_lt_iff₀ hbq
  have hup : (a : ℚ) / b < 2 ^ ((ilog2 a : ℤ) - ilog2 b + 1) := by
    rw [key2]
    have : (2 : ℚ) ^ ((ilog2 a : ℤ) - ilog2 b + 1) = 2 ^ (ilog2 a + 1) / 2 ^ (ilog2 b) := by
      rw [show ((ilog2 a : ℤ) - ilog2 b + 1) = ((ilog2 a + 1 : ℕ) : ℤ) - (ilog2 b : ℕ) by
        push_cast; ring]
      rw [zpow_sub₀ (by norm_num), zpow_natCast, zpow_natCast]
    rw [this, div_mul_eq_mul_div, lt_div_iff₀ (by positivity)]
    calc (a : ℚ) * 2 ^ ilog2 b < 2 ^ (ilog2 a + 1) * 2 ^ ilog2 b := by
          apply mul_lt_mul_of_pos_right ha2q (by positivity)
      _ ≤ 2 ^ (ilog2 a + 1) * b := by
          apply mul_le_mul_of_nonneg_left hb1q (by positivity)
  have hlow : (2 : ℚ) ^ ((ilog2 a : ℤ) - ilog2 b - 1) ≤ a / b := by
    rw [key]
    have : (2 : ℚ) ^ ((ilog2 a : ℤ) - ilog2 b - 1) = 2 ^ (ilog2 a) / 2 ^ (ilog2 b + 1) := by
      rw [show ((ilog2 a : ℤ) - ilog2 b - 1) = ((ilog2 a : ℕ) : ℤ) - ((ilog2 b + 1 : ℕ) : ℤ) by
        push_cast; ring]
      rw [zpow_sub₀ (by norm_num), zpow_natCast, zpow_natCast]
    rw [this, div_mul_eq_mul_div, div_le_iff₀ (by positivity)]
    calc (2 : ℚ) ^ ilog2 a * b ≤ 2 ^ ilog2 a * 2 ^ (ilog2 b + 1) := by
          apply mul_le_mul_of_nonneg_left hb2q.le (by positivity)
      _ ≤ a * 2 ^ (ilog2 b + 1) := by
          apply mul_le_mul_of_nonneg_right ha1q (by positivity)
  have hratio := scalePair_ratio a b ((ilog2 a : ℤ) - ilog2 b) hb
  have hp := scalePair_pos a b ((ilog2 a : ℤ) - ilog2 b) ha hb
  have hp2 : (0 : ℚ) < ((scalePair a b ((ilog2 a : ℤ) - ilog2 b)).2 : ℚ) := by exact_mod_cast hp.2
  unfold floorLog2
  simp only
  split
  · rename_i h
    refine ⟨?_, hup⟩
    have h1 : (1 : ℚ) ≤ ((scalePair a b ((ilog2 a : ℤ) - ilog2 b)).1 : ℚ) /
        ((scalePair a b ((ilog2 a : ℤ) - ilog2 b)).2 : ℚ) := by
      rw [le_div_iff₀ hp2, one_mul]
      exact_mod_cast h
    rw [hratio, le_div_iff₀ (hpos _), one_mul] at h1
    exact h1
  · rename_i h
    refine ⟨hlow, ?_⟩
    have h1 : ((scalePair a b ((ilog2 a : ℤ) - ilog2 b)).1 : ℚ) /
        ((scalePair a b ((ilog2 a : ℤ) - ilog2 b)).2 : ℚ) < 1 := by
      rw [div_lt_iff₀ hp2, one_mul]
      exact_mod_cast not_le.1 h
    rw [hratio, div_lt_iff₀ (hpos _), one_mul] at h1
    rw [sub_add_cancel]
    exact h1

theorem roundHalfEven_spec (num den : Nat) (hden : 0 < den) :
    |(roundHalfEven num den : ℚ) - (num : ℚ) / den| ≤ 1 / 2 := by
  have hd : (0 : ℚ) < den := by exact_mod_cast hden
  have hnum : (num : ℚ) = den * (num / den : ℕ) + (num % den : ℕ) := by
    exact_mod_cast (Nat.div_add_mod num den).symm
  have hq : (num : ℚ) / den = (num / den : ℕ) + ((num % den : ℕ) : ℚ) / den := by
    have h : (num : ℚ) / den = (den * (num / den : ℕ) + (num % den : ℕ)) / den := by
      rw [← hnum]
    rw [h]
    field_simp
    ring
  rw [hq]
  have hr0 : (0 : ℚ) ≤ ((num % den : ℕ) : ℚ) / den := by positivity
  unfold roundHalfEven
  simp only
  rw [abs_le]
  split_ifs with h1 h2 h3
  · have : ((num % den : ℕ) : ℚ) / den < 1 / 2 := by
      rw [div_lt_iff₀ hd]
      have : (2 : ℚ) * (num % den : ℕ) < den := by exact_mod_cast h1
      linarith
    constructor <;> linarith
  · have : (1 : ℚ) / 2 < ((num % den : ℕ) : ℚ) / den := by
      rw [lt_div_iff₀ hd]
      have : (den : ℚ) < 2 * (num % den : ℕ) := by exact_mod_cast h2
      linarith
    have hlt : ((num % den : ℕ) : ℚ) / den < 1 := by
      rw [div_lt_iff₀ hd, one_mul]
      exact_mod_cast Nat.mod_lt _ hden
    push_cast
    constructor <;> linarith
  · have : ((num % den : ℕ) : ℚ) / den = 1 / 2 := by
      rw [div_eq_iff hd.ne']
      have : (2 : ℚ) * (num % den : ℕ) = den := by exact_mod_cast (by omega : 2 * (num % den) = den)
      linarith
    constructor <;> linarith
  · have : ((num % den : ℕ) : ℚ) / den = 1 / 2 := by
      rw [div_eq_iff hd.ne']
      have : (2 : ℚ) * (num % den : ℕ) = den := by exact_mod_cast (by omega : 2 * (num % den) = den)
      linarith
    push_cast
    constructor <;> linarith

theorem roundHalfEven_exact (den N : Nat) (hden : 0 < den) :
    roundHalfEven (N * den) den = N := by
  simp [roundHalfEven, Nat.mul_div_cancel _ hden, hden]

theorem two_zpow_pos (z : ℤ) : (0 : ℚ) < 2 ^ z := zpow_pos (by norm_num) z

theorem roundPos_normal (neg : Bool) (a b : Nat) (ha : 0 < a) (hb : 0 < b)
    (hlo : (2 : ℚ) ^ (-1022 : ℤ) ≤ (a : ℚ) / b) (hhi : (a : ℚ) / b < 2 ^ (1023 : ℤ)) :
    ∃ m e, roundPos neg a b = F64.fin neg m e ∧ 2 ^ 52 ≤ m ∧ m < 2 ^ 53 ∧
      |(m : ℚ) * 2 ^ e - (a : ℚ) / b| ≤ (a : ℚ) / b * 2 ^ (-53 : ℤ) := by
  obtain ⟨hL1, hL2⟩ := floorLog2_spec a b ha hb
  have h2 : (1 : ℚ) < 2 := by norm_num
  have hLlo : -1022 ≤ floorLog2 a b := by
    have := lt_of_le_of_lt hlo hL2
    rw [zpow_lt_zpow_iff_right₀ h2] at this
    omega
  have hLhi : floorLog2 a b ≤ 1022 := by
    have := lt_of_le_of_lt hL1 hhi
    rw [zpow_lt_zpow_iff_right₀ h2] at this
    omega
  have he : max (floorLog2 a b - 52) (-1074) = floorLog2 a b - 52 := max_eq_left (by omega)
  have hratio := scalePair_ratio a b (floorLog2 a b - 52) hb
  have hp := scalePair_pos a b (floorLog2 a b - 52) ha hb
  have hround := roundHalfEven_spec (scalePair a b (floorLog2 a b - 52)).1
    (scalePair a b (floorLog2 a b - 52)).2 hp.2
  rw [hratio] at hround
  have hepos := two_zpow_pos (floorLog2 a b - 52)
  have hx1 : (2 : ℚ) ^ (52 : ℕ) ≤ (a : ℚ) / b / 2 ^ (floorLog2 a b - 52) := by
    rw [le_div_iff₀ hepos, ← zpow_natCast, ← zpow_add₀ (by norm_num)]
    simpa using hL1
  have hx2 : (a : ℚ) / b / 2 ^ (floorLog2 a b - 52) < (2 : ℚ) ^ (53 : ℕ) := by
    rw [div_lt_iff₀ hepos, ← zpow_natCast, ← zpow_add₀ (by norm_num)]
    have : ((53 : ℕ) : ℤ) + (floorLog2 a b - 52) = floorLog2 a b + 1 := by push_cast; ring
    rw [this]
    exact hL2
  rw [abs_le] at hround
  set m := roundHalfEven (scalePair a b (floorLog2 a b - 52)).1
    (scalePair a b (floorLog2 a b - 52)).2 with hm
  have hm1 : 2 ^ 52 ≤ m := by
    have : ((2 ^ 52 : ℕ) : ℚ) - 1 < m := by push_cast; linarith [hround.1]
    have : (2 ^ 52 : ℕ) - 1 < m := by
      have h' : (((2 ^ 52 - 1 : ℕ)) : ℚ) < m := by
        rw [Nat.cast_sub (by norm_num)]; push_cast; push_cast at this; linarith
      exact_mod_cast h'
    omega
  have hm2 : m ≤ 2 ^ 53 := by
    have : (m : ℚ) < ((2 ^ 53 : ℕ) : ℚ) + 1 := by push_cast; linarith [hround.2]
    have h' : (m : ℚ) < ((2 ^ 53 + 1 : ℕ) : ℚ) := by push_cast; push_cast at this; linarith
    have : m < 2 ^ 53 + 1 := by exact_mod_cast h'
    omega
  have herr : |(m : ℚ) * 2 ^ (floorLog2 a b - 52) - (a : ℚ) / b| ≤
      (a : ℚ) / b * 2 ^ (-53 : ℤ) := by
    have hsplit : (m : ℚ) * 2 ^ (floorLog2 a b - 52) - (a : ℚ) / b =
        ((m : ℚ) - (a : ℚ) / b / 2 ^ (floorLog2 a b - 52)) * 2 ^ (floorLog2 a b - 52) := by
      field_simp
      ring
    rw [hsplit, abs_mul, abs_of_pos hepos]
    have habs : |(m : ℚ) - (a : ℚ) / b / 2 ^ (floorLog2 a b - 52)| ≤ 1 / 2 := abs_le.2 hround
    calc |(m : ℚ) - (a : ℚ) / b / 2 ^ (floorLog2 a b - 52)| * 2 ^ (floorLog2 a b - 52)
        ≤ 1 / 2 * 2 ^ (floorLog2 a b - 52) := mul_le_mul_of_nonneg_right habs hepos.le
      _ = 2 ^ floorLog2 a b * 2 ^ (-53 : ℤ) := by
          rw [← zpow_add₀ (by norm_num : (2 : ℚ) ≠ 0)]
          rw [show floorLog2 a b + -53 = (floorLog2 a b - 52) + (-1) by ring]
          rw [zpow_add₀ (by norm_num : (2 : ℚ) ≠ 0)]
          norm_num
          ring
      _ ≤ (a : ℚ) / b * 2 ^ (-53 : ℤ) := mul_le_mul_of_nonneg_right hL1 (two_zpow_pos _).le
  by_cases hmtop : m = 2 ^ 53
  · refine ⟨2 ^ 52, floorLog2 a b - 52 + 1, ?_, le_rfl, by norm_num, ?_⟩
    · unfold roundPos
      simp only [he, ← hm, hmtop, if_true]
      rw [if_neg (by omega), if_neg (by norm_num)]
    · have : ((2 ^ 52 : ℕ) : ℚ) * 2 ^ (floorLog2 a b - 52 + 1) =
          (m : ℚ) * 2 ^ (floorLog2 a b - 52) := by
        rw [hmtop, zpow_add₀ (by norm_num : (2 : ℚ) ≠ 0)]
        push_cast
        ring
      rw [this]
      exact herr
  · refine ⟨m, floorLog2 a b - 52, ?_, hm1, by omega, herr⟩
    unfold roundPos
    simp only [he, ← hm, hmtop, if_false]
    rw [if_neg (by omega), if_neg (by omega)]

theorem roundPos_exact (neg : Bool) (a b : Nat) (ha : 0 < a) (hb : 0 < b) (M : ℕ) (E : ℤ)
    (hM : M < 2 ^ 53) (hE1 : -1074 ≤ E) (hE2 : E ≤ 971) (hq : (a : ℚ) / b = (M : ℚ) * 2 ^ E) :
    ∃ m e, roundPos neg a b = F64.fin neg m e ∧ (m : ℚ) * 2 ^ e = (a : ℚ) / b ∧ 0 < m ∧
      m < 2 ^ 53 := by
  obtain ⟨hL1, hL2⟩ := floorLog2_spec a b ha hb
  have h2 : (1 : ℚ) < 2 := by norm_num
  have h20 : (2 : ℚ) ≠ 0 := by norm_num
  have hqpos : (0 : ℚ) < (a : ℚ) / b := by positivity
  have hMq : (M : ℚ) < 2 ^ (53 : ℤ) := by
    have h : (M : ℚ) < (2 : ℚ) ^ (53 : ℕ) := by exact_mod_cast hM
    have h' : (2 : ℚ) ^ (53 : ℤ) = (2 : ℚ) ^ (53 : ℕ) := by norm_num
    rw [h']
    exact h
  have hLE : floorLog2 a b - 52 ≤ E := by
    have h1 : (2 : ℚ) ^ floorLog2 a b < 2 ^ (53 + E) := by
      calc (2 : ℚ) ^ floorLog2 a b ≤ (a : ℚ) / b := hL1
        _ = (M : ℚ) * 2 ^ E := hq
        _ < 2 ^ (53 : ℤ) * 2 ^ E := mul_lt_mul_of_pos_right hMq (two_zpow_pos E)
        _ = 2 ^ (53 + E) := (zpow_add₀ h20 _ _).symm
    rw [zpow_lt_zpow_iff_right₀ h2] at h1
    omega
  set e := max (floorLog2 a b - 52) (-1074) with he
  have heE : e ≤ E := max_le hLE hE1
  have heL : floorLog2 a b - 52 ≤ e := le_max_left _ _
  have hratio := scalePair_ratio a b e hb
  have hp := scalePair_pos a b e ha hb
  have hepos := two_zpow_pos e
  obtain ⟨d, hd⟩ : ∃ d : ℕ, E - e = d := ⟨(E - e).toNat, by omega⟩
  obtain ⟨N, hN⟩ : ∃ N : ℕ, N = M * 2 ^ d := ⟨_, rfl⟩
  have hx : (a : ℚ) / b / 2 ^ e = (N : ℚ) := by
    rw [hq, div_eq_iff hepos.ne', hN]
    push_cast
    rw [mul_assoc, ← zpow_natCast, ← hd, ← zpow_add₀ h20]
    congr 2
    ring
  have hnat : (scalePair a b e).1 = N * (scalePair a b e).2 := by
    have hp2 : ((scalePair a b e).2 : ℚ) ≠ 0 := by
      have := hp.2
      positivity
    rw [hx, div_eq_iff hp2] at hratio
    exact_mod_cast hratio
  have hm : roundHalfEven (scalePair a b e).1 (scalePair a b e).2 = N := by
    rw [hnat]
    exact roundHalfEven_exact _ _ hp.2
  have hNlt : N < 2 ^ 53 := by
    have : (N : ℚ) < ((2 ^ 53 : ℕ) : ℚ) := by
      rw [← hx, div_lt_iff₀ hepos]
      calc (a : ℚ) / b < 2 ^ (floorLog2 a b + 1) := hL2
        _ ≤ 2 ^ ((53 : ℤ) + e) := zpow_le_zpow_right₀ h2.le (by omega)
        _ = ((2 ^ 53 : ℕ) : ℚ) * 2 ^ e := by
            rw [zpow_add₀ h20]
            norm_num
    exact_mod_cast this
  have hNpos : 0 < N := by
    have : (0 : ℚ) < (N : ℚ) := by
      rw [← hx]
      positivity
    exact_mod_cast this
  have hne : N ≠ 2 ^ 53 := by omega
  have he971 : ¬ (971 < e) := by omega
  have hN0 : N ≠ 0 := by omega
  refine ⟨N, e, ?_, ?_, hNpos, hNlt⟩
  · unfold roundPos
    simp only [← he, hm, hne, if_false, he971, hN0]
  · rw [← hx]
    field_simp
    ring

theorem roundPos_ofNat (neg : Bool) (k : Nat) (hk : 0 < k) (hk2 : k < 2 ^ 53) :
    ∃ m e, roundPos neg k 1 = F64.fin neg m e ∧ (m : ℚ) * 2 ^ e = (k : ℚ) ∧ 0 < m ∧
      m < 2 ^ 53 := by
  have := roundPos_exact neg k 1 hk Nat.one_pos k 0 hk2 (by norm_num) (by norm_num) (by simp)
  simpa using this

theorem natAbs?_of_value (s : Bool) (m : Nat) (e : Int) (k : Nat)
    (h : (m : ℚ) * 2 ^ e = (k : ℚ)) : (F64.fin s m e).natAbs? = some k := by
  simp only [F64.natAbs?]
  split
  · rename_i he
    obtain ⟨d, rfl⟩ := Int.eq_ofNat_of_zero_le he
    rw [zpow_natCast] at h
    have : m * 2 ^ d = k := by exact_mod_cast h
    simp [this]
  · rename_i he
    obtain ⟨d, rfl⟩ : ∃ d : ℕ, e = -(d : ℤ) := ⟨(-e).toNat, by omega⟩
    rw [zpow_neg, zpow_natCast, ← div_eq_mul_inv, div_eq_iff (by positivity)] at h
    have hm : m = k * 2 ^ d := by exact_mod_cast h
    simp [hm, Nat.mul_div_cancel _ (Nat.two_pow_pos d)]

theorem floor_value (m : Nat) (e : Int) (hm : m < 2 ^ 53) :
    (F64.floor (F64.fin false m e)).natAbs? = some ⌊(F64.fin false m e).toRat⌋₊ := by
  simp only [F64.floor]
  split
  · rename_i he
    obtain ⟨d, rfl⟩ := Int.eq_ofNat_of_zero_le he
    apply natAbs?_of_value
    simp only [F64.toRat, Bool.false_eq_true, if_false, one_mul, zpow_natCast]
    have : (m : ℚ) * 2 ^ d = ((m * 2 ^ d : ℕ) : ℚ) := by push_cast; ring
    rw [this, Nat.floor_natCast]
  · rename_i he
    obtain ⟨d, rfl⟩ : ∃ d : ℕ, e = -(d : ℤ) := ⟨(-e).toNat, by omega⟩
    have hval : ⌊(F64.fin false m (-(d : ℤ))).toRat⌋₊ = m / 2 ^ d := by
      simp only [F64.toRat, Bool.false_eq_true, if_false, one_mul, zpow_neg, zpow_natCast]
      rw [← div_eq_mul_inv]
      have : (m : ℚ) / 2 ^ d = (m : ℚ) / ((2 ^ d : ℕ) : ℚ) := by push_cast; ring
      rw [this, Nat.floor_div_eq_div]
    rw [hval]
    simp only [neg_neg, Int.toNat_ofNat, Bool.false_eq_true, if_false]
    split
    · rename_i hk
      rw [hk]
      rfl
    · rename_i hk
      have hk2 : m / 2 ^ d < 2 ^ 53 := lt_of_le_of_lt (Nat.div_le_self _ _) hm
      obtain ⟨m', e', hr, hv, -, -⟩ := roundPos_ofNat false (m / 2 ^ d) (by omega) hk2
      rw [hr]
      exact natAbs?_of_value _ _ _ _ hv

theorem roundPos_mantissa_lt (neg : Bool) (a b : Nat) (ha : 0 < a) (hb : 0 < b)
    (s : Bool) (m' : Nat) (e' : Int) (h : roundPos neg a b = F64.fin s m' e') :
    s = neg ∧ m' < 2 ^ 53 := by
  obtain ⟨hL1, hL2⟩ := floorLog2_spec a b ha hb
  have h2 : (1 : ℚ) < 2 := by norm_num
  have h20 : (2 : ℚ) ≠ 0 := by norm_num
  set e := max (floorLog2 a b - 52) (-1074) with he
  have heL : floorLog2 a b - 52 ≤ e := le_max_left _ _
  have hratio := scalePair_ratio a b e hb
  have hp := scalePair_pos a b e ha hb
  have hround := roundHalfEven_spec (scalePair a b e).1 (scalePair a b e).2 hp.2
  rw [hratio, abs_le] at hround
  have hepos := two_zpow_pos e
  have hx2 : (a : ℚ) / b / 2 ^ e < (2 : ℚ) ^ (53 : ℕ) := by
    rw [div_lt_iff₀ hepos]
    calc (a : ℚ) / b < 2 ^ (floorLog2 a b + 1) := hL2
      _ ≤ 2 ^ ((53 : ℤ) + e) := zpow_le_zpow_right₀ h2.le (by omega)
      _ = (2 : ℚ) ^ (53 : ℕ) * 2 ^ e := by
          rw [zpow_add₀ h20]
          norm_num
  set m := roundHalfEven (scalePair a b e).1 (scalePair a b e).2 with hm
  have hm2 : m ≤ 2 ^ 53 := by
    have h' : (m : ℚ) < ((2 ^ 53 + 1 : ℕ) : ℚ) := by push_cast; linarith [hround.2]
    have : m < 2 ^ 53 + 1 := by exact_mod_cast h'
    omega
  unfold roundPos at h
  simp only [← he, ← hm] at h
  by_cases hmtop : m = 2 ^ 53
  · simp only [hmtop, if_true] at h
    split_ifs at h with h1 h2
    · simp at h2
    · simp only [F64.fin.injEq] at h
      exact ⟨h.1.symm, by rw [← h.2.1]; norm_num⟩
  · simp only [hmtop, if_false] at h
    split_ifs at h with h1 h2
    · simp only [F64.fin.injEq] at h
      exact ⟨h.1.symm, by rw [← h.2.1]; norm_num⟩
    · simp only [F64.fin.injEq] at h
      exact ⟨h.1.symm, by rw [← h.2.1]; omega⟩

theorem mul_billion_eq (m : Nat) (e : Int) (hm : m ≠ 0) :
    ∃ a b : Nat, 0 < a ∧ 0 < b ∧
      F64.mul (F64.fin false m e) F64.billion = roundPos false a b ∧
      (a : ℚ) / b = (F64.fin false m e).toRat * 10 ^ 9 := by
  have hp := scalePair_pos (m * 1000000000) 1 (-(e + 0)) (by omega) Nat.one_pos
  refine ⟨_, _, hp.1, hp.2, ?_, ?_⟩
  · simp [F64.mul, F64.billion, F64.roundScaled, hm]
  · rw [scalePair_ratio _ _ _ Nat.one_pos]
    simp only [F64.toRat, Bool.false_eq_true, if_false, one_mul, add_zero, zpow_neg]
    push_cast
    field_simp
    ring

theorem div_billion_eq (m : Nat) (e : Int) (hm : m ≠ 0) :
    ∃ a b : Nat, 0 < a ∧ 0 < b ∧
      F64.div (F64.fin false m e) F64.billion = roundPos false a b ∧
      (a : ℚ) / b = (F64.fin false m e).toRat / 10 ^ 9 := by
  have hp := scalePair_pos m 1000000000 (-(e - 0)) (by omega) (by norm_num)
  refine ⟨_, _, hp.1, hp.2, ?_, ?_⟩
  · simp [F64.div, F64.billion, F64.roundScaled, hm]
  · rw [scalePair_ratio _ _ _ (by norm_num)]
    simp only [F64.toRat, Bool.false_eq_true, if_false, one_mul, sub_zero, zpow_neg]
    push_cast
    field_simp
    norm_num

theorem floor_fin (m : Nat) (e : Int) (hm : m < 2 ^ 53) :
    ∃ m' e', F64.floor (F64.fin false m e) = F64.fin false m' e' ∧
      (F64.fin false m' e').natAbs? = some ⌊(F64.fin false m e).toRat⌋₊ := by
  have hv := floor_value m e hm
  simp only [F64.floor] at hv ⊢
  split
  · exact ⟨m, e, rfl, by simpa [*] using hv⟩
  · rename_i he
    simp only [he, if_false, Bool.false_eq_true] at hv ⊢
    split
    · rename_i hk
      exact ⟨0, 0, rfl, by simpa [hk] using hv⟩
    · rename_i hk
      have hk2 : m / 2 ^ (-e).toNat < 2 ^ 53 := lt_of_le_of_lt (Nat.div_le_self _ _) hm
      obtain ⟨m', e', hr, -, -, -⟩ :=
        roundPos_ofNat false (m / 2 ^ (-e).toNat) (Nat.pos_of_ne_zero hk) hk2
      refine ⟨m', e', hr, ?_⟩
      simpa [hk, hr] using hv

theorem numberToString_floor (rt : Runtime) (m : Nat) (e : Int) (hm : m < 2 ^ 53)
    (hlt : ⌊(F64.fin false m e).toRat⌋₊ < 2 ^ 53) :
    numberToString rt (F64.floor (F64.fin false m e)) =
      natToDecimal ⌊(F64.fin false m e).toRat⌋₊ := by
  obtain ⟨m', e', hf, hn⟩ := floor_fin m e hm
  rw [hf]
  simp only [numberToString, hn, hlt, if_true, Bool.false_and, Bool.false_eq_true, if_false]
  simp

/-! ## Decimal digit lemmas -/

theorem digitVal?_digitChar (d : Nat) (hd : d < 10) : digitVal? (digitChar d) = some d := by
  interval_cases d <;> decide

theorem parseDigitsFrom_append (xs ys : List Char) (v : Nat) :
    parseDigitsFrom (xs ++ ys) v = (parseDigitsFrom xs v).bind (parseDigitsFrom ys) := by
  induction xs generalizing v with
  | nil => rfl
  | cons c cs ih =>
    simp only [List.cons_append, parseDigitsFrom]
    cases digitVal? c with
    | none => rfl
    | some d => exact ih _

theorem decimalDigits_acc : ∀ (fuel n : Nat) (acc : List Char),
    decimalDigits fuel n acc = decimalDigits fuel n [] ++ acc
  | 0, n, acc => rfl
  | fuel + 1, n, acc => by
    unfold decimalDigits
    split
    · rfl
    · rw [decimalDigits_acc fuel (n / 10) (digitChar (n % 10) :: acc),
        decimalDigits_acc fuel (n / 10) [digitChar (n % 10)]]
      simp

theorem parse_decimalDigits : ∀ (fuel n : Nat), n < fuel →
    decimalDigits fuel n [] ≠ [] ∧
    ∀ v, parseDigitsFrom (decimalDigits fuel n []) v =
      some (v * 10 ^ (decimalDigits fuel n []).length + n)
  | 0, n, h => by omega
  | fuel + 1, n, h => by
    unfold decimalDigits
    split
    · rename_i hn
      refine ⟨by simp, fun v => ?_⟩
      simp [parseDigitsFrom, digitVal?_digitChar n hn]
      ring
    · rename_i hn
      obtain ⟨hne, ih⟩ := parse_decimalDigits fuel (n / 10) (by omega)
      rw [decimalDigits_acc]
      refine ⟨by simp [hne], fun v => ?_⟩
      rw [parseDigitsFrom_append, ih]
      simp only [Option.some_bind, parseDigitsFrom,
        digitVal?_digitChar (n % 10) (Nat.mod_lt _ (by norm_num)), List.length_append,
        List.length_singleton]
      congr 1
      rw [pow_succ]
      have := Nat.div_add_mod n 10
      nlinarith [this]

theorem parseDecimal_natToDecimal (n : Nat) : parseDecimal (natToDecimal n) = some n := by
  obtain ⟨hne, h⟩ := parse_decimalDigits (n + 1) n (Nat.lt_succ_self n)
  unfold parseDecimal natToDecimal
  cases hD : decimalDigits (n + 1) n [] with
  | nil => exact absurd hD hne
  | cons c cs =>
    simp only
    rw [← hD, h 0]
    simp

/-! ## The two conversions on doubles -/

theorem mul_billion_fin (m : Nat) (e : Int) (m' : Nat) (e' : Int) (s : Bool)
    (h : F64.mul (F64.fin false m e) F64.billion = F64.fin s m' e') :
    s = false ∧ m' < 2 ^ 53 := by
  by_cases hm : m = 0
  · simp [F64.mul, F64.billion, hm] at h
    exact ⟨h.1, by rw [← h.2.1]; norm_num⟩
  · obtain ⟨a, b, ha, hb, hmul, -⟩ := mul_billion_eq m e hm
    rw [hmul] at h
    exact roundPos_mantissa_lt false a b ha hb s m' e' h

theorem mul_billion_exact (m : Nat) (e : Int) (hm : m * 10 ^ 9 < 2 ^ 53) (he1 : -1074 ≤ e)
    (he2 : e ≤ 971) :
    ∃ m' e', F64.mul (F64.fin false m e) F64.billion = F64.fin false m' e' ∧
      (F64.fin false m' e').toRat = (F64.fin false m e).toRat * 10 ^ 9 := by
  by_cases hm0 : m = 0
  · exact ⟨0, 0, by simp [F64.mul, F64.billion, hm0], by simp [F64.toRat, hm0]⟩
  · obtain ⟨a, b, ha, hb, hmul, hab⟩ := mul_billion_eq m e hm0
    obtain ⟨m', e', hr, hv, -, -⟩ := roundPos_exact false a b ha hb (m * 10 ^ 9) e hm he1 he2
      (by rw [hab]; simp only [F64.toRat, Bool.false_eq_true, if_false, one_mul]; push_cast; ring)
    refine ⟨m', e', by rw [hmul, hr], ?_⟩
    rw [← hab, ← hv]
    simp [F64.toRat]

theorem mul_billion_near (m : Nat) (e : Int)
    (hlo : (2 : ℚ) ^ (-1022 : ℤ) ≤ (F64.fin false m e).toRat * 10 ^ 9)
    (hhi : (F64.fin false m e).toRat * 10 ^ 9 < 2 ^ (1023 : ℤ)) :
    ∃ m' e', F64.mul (F64.fin false m e) F64.billion = F64.fin false m' e' ∧ m' < 2 ^ 53 ∧
      |(F64.fin false m' e').toRat - (F64.fin false m e).toRat * 10 ^ 9| ≤
        (F64.fin false m e).toRat * 10 ^ 9 * 2 ^ (-53 : ℤ) := by
  have hm0 : m ≠ 0 := by
    rintro rfl
    have : (0 : ℚ) < (2 : ℚ) ^ (-1022 : ℤ) := two_zpow_pos _
    simp [F64.toRat] at hlo
    linarith
  obtain ⟨a, b, ha, hb, hmul, hab⟩ := mul_billion_eq m e hm0
  rw [← hab] at hlo hhi ⊢
  obtain ⟨m', e', hr, -, hm', herr⟩ := roundPos_normal false a b ha hb hlo hhi
  refine ⟨m', e', by rw [hmul, hr], hm', ?_⟩
  simpa [F64.toRat] using herr

theorem billionth_ge : (2 : ℚ) ^ (-1022 : ℤ) ≤ 1 / 10 ^ 9 := by
  have h1 : (2 : ℚ) ^ (-1022 : ℤ) ≤ 2 ^ (-30 : ℤ) :=
    zpow_le_zpow_right₀ (by norm_num) (by norm_num)
  have h2 : (2 : ℚ) ^ (-30 : ℤ) ≤ 1 / 10 ^ 9 := by norm_num
  exact h1.trans h2

theorem two_pow_53_lt : ((2 : ℚ) ^ (53 : ℕ)) < 2 ^ (1023 : ℤ) := by
  rw [← zpow_natCast]
  exact zpow_lt_zpow_right₀ (by norm_num) (by norm_num)

theorem mist_to_sui_double (rt : Runtime) (n : Nat) (hn : n < 2 ^ 53) :
    ∃ m e, F64.div (stringToNumber rt (natToDecimal n)) F64.billion = F64.fin false m e ∧
      m < 2 ^ 53 ∧ (n = 0 → m = 0) ∧ (0 < n → 2 ^ 52 ≤ m) ∧
      |(m : ℚ) * 2 ^ e - (n : ℚ) / 10 ^ 9| ≤ (n : ℚ) / 10 ^ 9 * 2 ^ (-53 : ℤ) ∧
      ∀ j : ℕ, n = j * 10 ^ 9 → (m : ℚ) * 2 ^ e = j := by
  have hparse : stringToNumber rt (natToDecimal n) = F64.ofNat n := by
    simp [stringToNumber, parseDecimal_natToDecimal]
  rw [hparse]
  by_cases hn0 : n = 0
  · subst hn0
    refine ⟨0, 0, by simp [F64.ofNat, F64.div, F64.billion], by norm_num, fun _ => rfl,
      fun h => absurd h (lt_irrefl 0), by simp, fun j hj => ?_⟩
    have : j = 0 := by omega
    simp [this]
  · have hnpos : 0 < n := Nat.pos_of_ne_zero hn0
    obtain ⟨m1, e1, hr1, hv1, hm1pos, -⟩ := roundPos_ofNat false n hnpos hn
    have hof : F64.ofNat n = F64.fin false m1 e1 := by simp [F64.ofNat, hn0, hr1]
    obtain ⟨a, b, ha, hb, hdiv, hab⟩ := div_billion_eq m1 e1 (by omega)
    have hab' : (a : ℚ) / b = (n : ℚ) / 10 ^ 9 := by
      rw [hab]
      simp only [F64.toRat, Bool.false_eq_true, if_false, one_mul, hv1]
    have hnq : (1 : ℚ) ≤ n := by exact_mod_cast hnpos
    have hnq2 : (n : ℚ) < (2 : ℚ) ^ (53 : ℕ) := by exact_mod_cast hn
    have hlo : (2 : ℚ) ^ (-1022 : ℤ) ≤ (a : ℚ) / b := by
      rw [hab']
      refine billionth_ge.trans ?_
      exact div_le_div_of_nonneg_right hnq (by positivity)
    have hhi : (a : ℚ) / b < 2 ^ (1023 : ℤ) := by
      rw [hab']
      refine lt_trans ?_ two_pow_53_lt
      refine lt_of_le_of_lt ?_ hnq2
      exact div_le_self (by positivity) (by norm_num)
    obtain ⟨m, e, hr, hm1, hm2, herr⟩ := roundPos_normal false a b ha hb hlo hhi
    refine ⟨m, e, by rw [hof, hdiv, hr], hm2, fun h => absurd h hn0, fun _ => hm1,
      by rw [← hab']; exact herr, fun j hj => ?_⟩
    have hj53 : j < 2 ^ 53 := by
      have : j ≤ n := by rw [hj]; exact Nat.le_mul_of_pos_right _ (by norm_num)
      omega
    obtain ⟨m2, e2, hr2, hv2, -, -⟩ := roundPos_exact false a b ha hb j 0 hj53 (by norm_num)
      (by norm_num) (by rw [hab', hj]; push_cast; field_simp; left; norm_num)
    rw [hr] at hr2
    simp only [F64.fin.injEq, true_and] at hr2
    rw [hr2.1, hr2.2, hv2, hab', hj]
    push_cast
    field_simp
    left
    norm_num

theorem dispatch_convert_sui_to_mist (env : Env) (st : State) (fields : List (String × JsVal))
    (x : F64) (hsui : fields.lookup "sui" = some (.num x)) :
    dispatch env st "convert_sui_to_mist" (.obj fields) =
      ⟨.ok (.obj [("sui", .num x),
        ("mist", .str (numberToString env.rt (F64.floor (F64.mul x F64.billion)))),
        ("formatted", .str (numberToString env.rt (F64.floor (F64.mul x F64.billion)) ++
          " MIST"))]), st, []⟩ := by
  show handleConvertSuiToMist env st (.obj fields) = _
  simp [handleConvertSuiToMist, getArg, hsui, JsVal.toNumber]

theorem dispatch_convert_mist_to_sui (env : Env) (st : State) (fields : List (String × JsVal))
    (mist : String) (hmist : fields.lookup "mist" = some (.str mist)) :
    dispatch env st "convert_mist_to_sui" (.obj fields) =
      ⟨.ok (.obj [("mist", .str mist),
        ("sui", .num (F64.div (stringToNumber env.rt mist) F64.billion)),
        ("formatted", .str (toFixed9 env.rt (F64.div (stringToNumber env.rt mist) F64.billion) ++
          " SUI"))]), st, []⟩ := by
  show handleConvertMistToSui env st (.obj fields) = _
  simp [handleConvertMistToSui, getArg, hmist, JsVal.toNumber]

theorem toRat_fin_nonneg (m : Nat) (e : Int) : 0 ≤ (F64.fin false m e).toRat := by
  simp only [F64.toRat, Bool.false_eq_true, if_false, one_mul]
  have := two_zpow_pos e
  positivity

/-! ## C6: SUI to MIST -/

set_option maxRecDepth 100000

/-- C6 (counterexample): the amount 0.000000063 SUI, that is 63 MIST. The number 0.000000063
of the request is the double 4760145414732602 * 2^-76; the handler multiplies it by 10^9 in
double arithmetic, gets 62.99999999999999 and floors it: the `mist` field is "62", whereas
floor(0.000000063 * 10^9) = 63. -/
theorem sui_to_mist_below_the_amount :
    F64.ofDecimal 63 9 = F64.fin false 4760145414732602 (-76) ∧
    (dispatch exampleEnv State.initial "convert_sui_to_mist"
        (.obj [("sui", .num (F64.ofDecimal 63 9))])).result =
      .ok (.obj [("sui", .num (F64.ofDecimal 63 9)), ("mist", .str "62"),
        ("formatted", .str "62 MIST")]) ∧
    ⌊(63 : ℚ) / 10 ^ 9 * 10 ^ 9⌋₊ = 63 ∧ natToDecimal 63 = "63" ∧ "62" ≠ "63" := by
  have hx : F64.ofDecimal 63 9 = F64.fin false 4760145414732602 (-76) := by decide
  refine ⟨hx, ?_, ?_, by decide, by decide⟩
  · rw [dispatch_convert_sui_to_mist exampleEnv State.initial
      [("sui", .num (F64.ofDecimal 63 9))] (F64.ofDecimal 63 9) rfl, hx]
    have h : numberToString exampleEnv.rt
        (F64.floor (F64.mul (F64.fin false 4760145414732602 (-76)) F64.billion)) = "62" := by
      decide
    rw [h]
    rfl
  · have : (63 : ℚ) / 10 ^ 9 * 10 ^ 9 = ((63 : ℕ) : ℚ) := by norm_num
    rw [this, Nat.floor_natCast]

/-- C6 (amended): let x be a non-negative finite number passed as `sui`, and p the double
product of x and 1_000_000_000, that is x * 10^9 rounded to the nearest double. If p is finite
and its floor is below 2^53, `convert_sui_to_mist` returns a Success payload whose `sui` field
is x, whose `mist` field is the decimal string of floor(p) and whose `formatted` field is that
string followed by " MIST". The product p equals x * 10^9 exactly when x * 10^9 fits a
double (53-bit mantissa), and otherwise differs from it by at most the relative rounding error
2^-53 (in the normal range). -/
theorem convert_sui_to_mist_spec (env : Env) (st : State) (fields : List (String × JsVal))
    (m : Nat) (e : Int) (hsui : fields.lookup "sui" = some (.num (F64.fin false m e))) :
    (∀ p : F64, p = F64.mul (F64.fin false m e) F64.billion → p.isFinite = true →
      ⌊p.toRat⌋₊ < 2 ^ 53 →
      callTool env st "convert_sui_to_mist" (.obj fields) =
        .ok ⟨⟨[⟨"text", env.rt.jsonStringify (.obj [("sui", .num (F64.fin false m e)),
          ("mist", .str (natToDecimal ⌊p.toRat⌋₊)),
          ("formatted", .str (natToDecimal ⌊p.toRat⌋₊ ++ " MIST"))])⟩], none⟩,
          st, some .convertSuiToMist, []⟩) ∧
    (m * 10 ^ 9 < 2 ^ 53 → -1074 ≤ e → e ≤ 971 →
      (F64.mul (F64.fin false m e) F64.billion).isFinite = true ∧
      (F64.mul (F64.fin false m e) F64.billion).toRat = (F64.fin false m e).toRat * 10 ^ 9) ∧
    ((2 : ℚ) ^ (-1022 : ℤ) ≤ (F64.fin false m e).toRat * 10 ^ 9 →
      (F64.fin false m e).toRat * 10 ^ 9 < 2 ^ (1023 : ℤ) →
      (F64.mul (F64.fin false m e) F64.billion).isFinite = true ∧
      |(F64.mul (F64.fin false m e) F64.billion).toRat - (F64.fin false m e).toRat * 10 ^ 9| ≤
        (F64.fin false m e).toRat * 10 ^ 9 * 2 ^ (-53 : ℤ)) := by
  refine ⟨?_, ?_, ?_⟩
  · intro p hp hfin hlt
    subst hp
    have hd := dispatch_convert_sui_to_mist env st fields (F64.fin false m e) hsui
    cases hmul : F64.mul (F64.fin false m e) F64.billion with
    | nan => rw [hmul] at hfin; cases hfin
    | inf s => rw [hmul] at hfin; cases hfin
    | fin s m' e' =>
      obtain ⟨rfl, hm'⟩ := mul_billion_fin m e m' e' s hmul
      rw [hmul] at hlt hd
      rw [numberToString_floor env.rt m' e' hm' hlt] at hd
      rw [callTool_of_ok env st _ _ _ (by rw [hd]), hd]
      rfl
  · intro hm he1 he2
    obtain ⟨m', e', hmul, hv⟩ := mul_billion_exact m e hm he1 he2
    rw [hmul]
    exact ⟨rfl, hv⟩
  · intro hlo hhi
    obtain ⟨m', e', hmul, -, herr⟩ := mul_billion_near m e hlo hhi
    rw [hmul]
    exact ⟨rfl, herr⟩

/-- C6 (witness): for x = 0.5 the `mist` field is "500000000". -/
theorem convert_sui_to_mist_spec_witness :
    callTool exampleEnv State.initial "convert_sui_to_mist"
        (.obj [("sui", .num (F64.fin false 1 (-1)))]) =
      .ok ⟨⟨[⟨"text", exampleEnv.rt.jsonStringify (.obj [("sui", .num (F64.fin false 1 (-1))),
          ("mist", .str "500000000"), ("formatted", .str "500000000 MIST")])⟩], none⟩,
        State.initial, some .convertSuiToMist, []⟩ := by
  have hp : F64.fin false 8388608000000000 (-24) =
      F64.mul (F64.fin false 1 (-1)) F64.billion := by decide
  have hv : (F64.fin false 8388608000000000 (-24)).toRat = ((500000000 : ℕ) : ℚ) := by
    norm_num [F64.toRat]
  have hfl : ⌊(F64.fin false 8388608000000000 (-24)).toRat⌋₊ = 500000000 := by
    rw [hv, Nat.floor_natCast]
  have h := (convert_sui_to_mist_spec exampleEnv State.initial
    [("sui", .num (F64.fin false 1 (-1)))] 1 (-1) rfl).1 _ hp rfl (by rw [hfl]; norm_num)
  rw [hfl] at h
  have hs : natToDecimal 500000000 = "500000000" := by decide
  rw [hs] at h
  exact h

/-! ## C7: MIST to SUI -/

/-- C7 (counterexample): for mist = "9007199254740995" the `sui` field is the double
4835703278458519 * 2^-29 (printed 9007199.254740996); it is not 9007199254740995 / 10^9, and
not even the double nearest to it: the next double below is strictly closer. The string is
first rounded to a double, then the quotient is rounded again. -/
theorem mist_to_sui_not_the_quotient :
    (dispatch exampleEnv State.initial "convert_mist_to_sui"
        (.obj [("mist", .str "9007199254740995")])).result =
      .ok (.obj [("mist", .str "9007199254740995"),
        ("sui", .num (F64.fin false 4835703278458519 (-29))),
        ("formatted", .str "9007199.254740996 SUI")]) ∧
    natToDecimal 9007199254740995 = "9007199254740995" ∧
    (F64.fin false 4835703278458519 (-29)).toRat ≠ (9007199254740995 : ℚ) / 10 ^ 9 ∧
    |(F64.fin false 4835703278458518 (-29)).toRat - (9007199254740995 : ℚ) / 10 ^ 9| <
      |(F64.fin false 4835703278458519 (-29)).toRat - (9007199254740995 : ℚ) / 10 ^ 9| := by
  refine ⟨?_, by decide, by norm_num [F64.toRat], ?_⟩
  · rw [dispatch_convert_mist_to_sui exampleEnv State.initial
      [("mist", .str "9007199254740995")] "9007199254740995" rfl]
    have h : F64.div (stringToNumber exampleEnv.rt "9007199254740995") F64.billion =
        F64.fin false 4835703278458519 (-29) := by decide
    rw [h]
    have h2 : toFixed9 exampleEnv.rt (F64.fin false 4835703278458519 (-29)) =
        "9007199.254740996" := by decide
    rw [h2]
    rfl
  · have hX : (F64.fin false 4835703278458519 (-29)).toRat - (9007199254740995 : ℚ) / 10 ^ 9 =
        269751 / 209715200000000 := by norm_num [F64.toRat]
    have hY : (F64.fin false 4835703278458518 (-29)).toRat - (9007199254740995 : ℚ) / 10 ^ 9 =
        -(60437 / 104857600000000) := by norm_num [F64.toRat]
    rw [hX, hY, abs_neg, abs_of_pos (by norm_num), abs_of_pos (by norm_num)]
    norm_num

/-- C7 (amended): for every `mist` argument that is the decimal string of a natural number
n below 2^53, `convert_mist_to_sui` returns a Success payload whose `mist` field is the input
string unchanged and whose `sui` field is a finite non-negative double s that is n / 10^9
rounded to a double: |s - n / 10^9| is at most n / 10^9 * 2^-53, and s is exactly n / 10^9
when n is a whole multiple of 10^9 (for mist = "1000000000", s = 1). -/
theorem convert_mist_to_sui_spec (env : Env) (st : State) (fields : List (String × JsVal))
    (n : Nat) (hmist : fields.lookup "mist" = some (.str (natToDecimal n))) (hn : n < 2 ^ 53) :
    ∃ s : F64,
      callTool env st "convert_mist_to_sui" (.obj fields) =
        .ok ⟨⟨[⟨"text", env.rt.jsonStringify (.obj [("mist", .str (natToDecimal n)),
          ("sui", .num s), ("formatted", .str (toFixed9 env.rt s ++ " SUI"))])⟩], none⟩,
          st, some .convertMistToSui, []⟩ ∧
      s.isFinite = true ∧ 0 ≤ s.toRat ∧
      |s.toRat - (n : ℚ) / 10 ^ 9| ≤ (n : ℚ) / 10 ^ 9 * 2 ^ (-53 : ℤ) ∧
      ∀ j : ℕ, n = j * 10 ^ 9 → s.toRat = j := by
  obtain ⟨m, e, hdiv, -, -, -, herr, hex⟩ := mist_to_sui_double env.rt n hn
  have hd := dispatch_convert_mist_to_sui env st fields (natToDecimal n) hmist
  rw [hdiv] at hd
  refine ⟨F64.fin false m e, ?_, rfl, toRat_fin_nonneg m e, ?_, ?_⟩
  · rw [callTool_of_ok env st _ _ _ (by rw [hd]), hd]
    rfl
  · simpa [F64.toRat] using herr
  · intro j hj
    simpa [F64.toRat] using hex j hj

/-- C7 (witness): for mist = "1000000000" the `sui` field is exactly 1. -/
theorem convert_mist_to_sui_spec_witness :
    ∃ s : F64,
      callTool exampleEnv State.initial "convert_mist_to_sui"
          (.obj [("mist", .str "1000000000")]) =
        .ok ⟨⟨[⟨"text", exampleEnv.rt.jsonStringify (.obj [("mist", .str "1000000000"),
          ("sui", .num s), ("formatted", .str (toFixed9 exampleEnv.rt s ++ " SUI"))])⟩], none⟩,
          State.initial, some .convertMistToSui, []⟩ ∧
      s.toRat = 1 := by
  have hs : natToDecimal 1000000000 = "1000000000" := by decide
  obtain ⟨s, h1, -, -, -, hex⟩ := convert_mist_to_sui_spec exampleEnv State.initial
    [("mist", .str "1000000000")] 1000000000 (by rw [hs]; rfl) (by norm_num)
  rw [hs] at h1
  exact ⟨s, h1, by simpa using hex 1 (by norm_num)⟩

/-! ## C8: the round trip MIST, SUI, MIST -/

theorem round_trip_double (m : Nat) (e : Int) (n : Nat) (hn : n < 2 ^ 52)
    (h0 : n = 0 → m = 0)
    (herr : |(m : ℚ) * 2 ^ e - (n : ℚ) / 10 ^ 9| ≤ (n : ℚ) / 10 ^ 9 * 2 ^ (-53 : ℤ))
    (hex : ∀ j : ℕ, n = j * 10 ^ 9 → (m : ℚ) * 2 ^ e = j) :
    ∃ m' e', F64.mul (F64.fin false m e) F64.billion = F64.fin false m' e' ∧ m' < 2 ^ 53 ∧
      (n : ℚ) - 1 < (F64.fin false m' e').toRat ∧ (F64.fin false m' e').toRat < (n : ℚ) + 1 ∧
      ∀ j : ℕ, n = j * 10 ^ 9 → (F64.fin false m' e').toRat = n := by
  by_cases hn0 : n = 0
  · have hm := h0 hn0
    subst hn0 hm
    refine ⟨0, 0, by simp [F64.mul, F64.billion], by norm_num, ?_, ?_, ?_⟩ <;>
      simp [F64.toRat]
  · have hnpos : 0 < n := Nat.pos_of_ne_zero hn0
    have hu : (2 : ℚ) ^ (-53 : ℤ) = 1 / 9007199254740992 := by norm_num
    have hN1 : (1 : ℚ) ≤ n := by exact_mod_cast hnpos
    have hN2 : (n : ℚ) ≤ 4503599627370495 := by
      have : n ≤ 4503599627370495 := by
        have : (2 : ℕ) ^ 52 = 4503599627370496 := by norm_num
        omega
      exact_mod_cast this
    have hsv : (F64.fin false m e).toRat = (m : ℚ) * 2 ^ e := by simp [F64.toRat]
    rw [hu, abs_le] at herr
    have hq1 : (n : ℚ) - n / 9007199254740992 ≤ (F64.fin false m e).toRat * 10 ^ 9 := by
      rw [hsv]
      have := herr.1
      have h9 : ((n : ℚ) / 10 ^ 9) * 10 ^ 9 = n := by field_simp
      nlinarith [this, h9]
    have hq2 : (F64.fin false m e).toRat * 10 ^ 9 ≤ (n : ℚ) + n / 9007199254740992 := by
      rw [hsv]
      have := herr.2
      have h9 : ((n : ℚ) / 10 ^ 9) * 10 ^ 9 = n := by field_simp
      nlinarith [this, h9]
    have hlo : (2 : ℚ) ^ (-1022 : ℤ) ≤ (F64.fin false m e).toRat * 10 ^ 9 := by
      have h1 : (2 : ℚ) ^ (-1022 : ℤ) ≤ 2 ^ (-1 : ℤ) :=
        zpow_le_zpow_right₀ (by norm_num) (by norm_num)
      have h2 : (2 : ℚ) ^ (-1 : ℤ) = 1 / 2 := by norm_num
      have h3 : (1 : ℚ) / 2 ≤ (n : ℚ) - n / 9007199254740992 := by linarith
      calc (2 : ℚ) ^ (-1022 : ℤ) ≤ 2 ^ (-1 : ℤ) := h1
        _ = 1 / 2 := h2
        _ ≤ (n : ℚ) - n / 9007199254740992 := h3
        _ ≤ (F64.fin false m e).toRat * 10 ^ 9 := hq1
    have hhi : (F64.fin false m e).toRat * 10 ^ 9 < 2 ^ (1023 : ℤ) := by
      have h1 := two_pow_53_lt
      have h2 : (2 : ℚ) ^ (53 : ℕ) = 9007199254740992 := by norm_num
      have h3 : (n : ℚ) + n / 9007199254740992 < 9007199254740992 := by linarith
      calc (F64.fin false m e).toRat * 10 ^ 9 ≤ (n : ℚ) + n / 9007199254740992 := hq2
        _ < 9007199254740992 := h3
        _ = (2 : ℚ) ^ (53 : ℕ) := h2.symm
        _ < 2 ^ (1023 : ℤ) := h1
    obtain ⟨m', e', hmul, hm', herr2⟩ := mul_billion_near m e hlo hhi
    rw [hu, abs_le] at herr2
    refine ⟨m', e', hmul, hm', by linarith [herr2.1], by linarith [herr2.2], fun j hj => ?_⟩
    have hj53 : n < 2 ^ 53 := lt_trans hn (by norm_num)
    obtain ⟨a, b, ha, hb, hmul2, hab⟩ := mul_billion_eq m e (by
      rintro rfl
      have := hex j hj
      simp at this
      have hj0 : j = 0 := by exact_mod_cast this.symm
      omega)
    have hval : (a : ℚ) / b = (n : ℚ) * 2 ^ (0 : ℤ) := by
      rw [hab, hsv, hex j hj, hj]
      push_cast
      ring
    obtain ⟨m2, e2, hr2, hv2, -, -⟩ := roundPos_exact false a b ha hb n 0 hj53 (by norm_num)
      (by norm_num) hval
    rw [hmul2, hr2] at hmul
    simp only [F64.fin.injEq, true_and] at hmul
    rw [← hmul.1, ← hmul.2]
    simp only [F64.toRat, Bool.false_eq_true, if_false, one_mul]
    rw [hv2, hval]
    simp

set_option maxRecDepth 100000

/-- C8 (counterexample): for n = 15 MIST, `convert_mist_to_sui` returns the double
4533471823554859 * 2^-78 (printed 0.000000015), and feeding that value to
`convert_sui_to_mist` returns the `mist` string "14", not "15". -/
theorem round_trip_loses_a_mist :
    natToDecimal 15 = "15" ∧
    (dispatch exampleEnv State.initial "convert_mist_to_sui"
        (.obj [("mist", .str "15")])).result =
      .ok (.obj [("mist", .str "15"),
        ("sui", .num (F64.fin false 4533471823554859 (-78))),
        ("formatted", .str "0.000000015 SUI")]) ∧
    (dispatch exampleEnv State.initial "convert_sui_to_mist"
        (.obj [("sui", .num (F64.fin false 4533471823554859 (-78)))])).result =
      .ok (.obj [("sui", .num (F64.fin false 4533471823554859 (-78))),
        ("mist", .str "14"), ("formatted", .str "14 MIST")]) ∧
    parseDecimal "14" = some 14 ∧ (14 : ℕ) ≠ 15 := by
  refine ⟨by decide, ?_, ?_, by decide, by decide⟩
  · rw [dispatch_convert_mist_to_sui exampleEnv State.initial
      [("mist", .str "15")] "15" rfl]
    have h : F64.div (stringToNumber exampleEnv.rt "15") F64.billion =
        F64.fin false 4533471823554859 (-78) := by decide
    rw [h]
    have h2 : toFixed9 exampleEnv.rt (F64.fin false 4533471823554859 (-78)) =
        "0.000000015" := by decide
    rw [h2]
    rfl
  · rw [dispatch_convert_sui_to_mist exampleEnv State.initial
      [("sui", .num (F64.fin false 4533471823554859 (-78)))]
      (F64.fin false 4533471823554859 (-78)) rfl]
    have h : numberToString exampleEnv.rt
        (F64.floor (F64.mul (F64.fin false 4533471823554859 (-78)) F64.billion)) = "14" := by
      decide
    rw [h]
    rfl

/-- C8 (amended): for every natural MIST amount n below 2^52, feeding the `sui` value that
`convert_mist_to_sui` returns for the decimal string of n into `convert_sui_to_mist` returns a
`mist` string that is the decimal string of a number k with k = n or k = n - 1 (so k never
exceeds n, and at most one MIST is lost); k = n whenever n is a whole multiple of 10^9. -/
theorem mist_round_trip (env1 env2 : Env) (st1 st2 : State) (n : Nat) (hn : n < 2 ^ 52) :
    ∃ (s : F64) (k : Nat),
      (dispatch env1 st1 "convert_mist_to_sui" (.obj [("mist", .str (natToDecimal n))])).result =
        .ok (.obj [("mist", .str (natToDecimal n)), ("sui", .num s),
          ("formatted", .str (toFixed9 env1.rt s ++ " SUI"))]) ∧
      (dispatch env2 st2 "convert_sui_to_mist" (.obj [("sui", .num s)])).result =
        .ok (.obj [("sui", .num s), ("mist", .str (natToDecimal k)),
          ("formatted", .str (natToDecimal k ++ " MIST"))]) ∧
      k ≤ n ∧ n ≤ k + 1 ∧ (∀ j : ℕ, n = j * 10 ^ 9 → k = n) := by
  obtain ⟨m, e, hdiv, -, h0, -, herr, hex⟩ :=
    mist_to_sui_double env1.rt n (lt_trans hn (by norm_num))
  obtain ⟨m', e', hmul, hm', hlo, hhi, hexact⟩ := round_trip_double m e n hn h0 herr hex
  have hnn := toRat_fin_nonneg m' e'
  have hk1 : ⌊(F64.fin false m' e').toRat⌋₊ ≤ n := by
    have : ⌊(F64.fin false m' e').toRat⌋₊ < n + 1 := by
      rw [Nat.floor_lt hnn]
      exact_mod_cast hhi
    omega
  have hk2 : n ≤ ⌊(F64.fin false m' e').toRat⌋₊ + 1 := by
    by_cases hn0 : n = 0
    · omega
    · have : n - 1 ≤ ⌊(F64.fin false m' e').toRat⌋₊ := by
        apply Nat.le_floor
        rw [Nat.cast_sub (by omega)]
        push_cast
        exact hlo.le
      omega
  have hlt : ⌊(F64.fin false m' e').toRat⌋₊ < 2 ^ 53 := by
    have : (2 : ℕ) ^ 52 < 2 ^ 53 := by norm_num
    omega
  refine ⟨F64.fin false m e, ⌊(F64.fin false m' e').toRat⌋₊, ?_, ?_, hk1, hk2, ?_⟩
  · rw [dispatch_convert_mist_to_sui env1 st1 [("mist", .str (natToDecimal n))]
      (natToDecimal n) rfl, hdiv]
  · rw [dispatch_convert_sui_to_mist env2 st2 [("sui", .num (F64.fin false m e))]
      (F64.fin false m e) rfl, hmul, numberToString_floor env2.rt m' e' hm' hlt]
  · intro j hj
    rw [hexact j hj, Nat.floor_natCast]

/-- C8 (witness): the round trip from n = 30. -/
theorem mist_round_trip_witness :
    ∃ (s : F64) (k : Nat),
      (dispatch exampleEnv State.initial "convert_mist_to_sui"
          (.obj [("mist", .str (natToDecimal 30))])).result =
        .ok (.obj [("mist", .str (natToDecimal 30)), ("sui", .num s),
          ("formatted", .str (toFixed9 exampleEnv.rt s ++ " SUI"))]) ∧
      (dispatch exampleEnv State.initial "convert_sui_to_mist" (.obj [("sui", .num s)])).result =
        .ok (.obj [("sui", .num s), ("mist", .str (natToDecimal k)),
          ("formatted", .str (natToDecimal k ++ " MIST"))]) ∧
      k ≤ 30 ∧ 30 ≤ k + 1 ∧ (∀ j : ℕ, 30 = j * 10 ^ 9 → k = 30) :=
  mist_round_trip exampleEnv exampleEnv State.initial State.initial 30 (by norm_num)

/-! ## C11: the faucet and the current network -/

theorem dispatch_faucet (env : Env) (st : State) (args : JsVal) :
    dispatch env st "request_tokens_from_faucet" args =
      handleRequestTokensFromFaucet env st args := rfl

/-- C11: what `request_tokens_from_faucet` does, for every state and arguments object, with
`w` the `walletName` read from the arguments. It never changes the state. On "mainnet" it
throws "Faucet is not available on mainnet", whether or not the wallet exists. On every other
current network, "localnet" included, there is no refusal: an unknown wallet gives the error
"Wallet 'w' not found", and a known wallet gives a response without error flag whose payload
has `success: false` and a `faucetUrl` built from the current network. -/
theorem faucet_refuses_mainnet_only (env : Env) (st : State) (fields : List (String × JsVal)) :
    (dispatch env st "request_tokens_from_faucet" (.obj fields)).state = st ∧
    (st.currentNetwork = .str "mainnet" →
      (dispatch env st "request_tokens_from_faucet" (.obj fields)).result =
        .error (.error "Error" "Faucet is not available on mainnet")) ∧
    (∀ net : String, st.currentNetwork = .str net → net ≠ "mainnet" →
      (mapGet ((fields.lookup "walletName").getD .undefined) st.wallets = none →
        (dispatch env st "request_tokens_from_faucet" (.obj fields)).result =
          .error (.error "Error" ("Wallet '" ++
            ((fields.lookup "walletName").getD .undefined).toJsString env.rt ++
            "' not found"))) ∧
      (∀ wallet, mapGet ((fields.lookup "walletName").getD .undefined) st.wallets =
          some wallet →
        (dispatch env st "request_tokens_from_faucet" (.obj fields)).result =
          .ok (.obj [("success", .bool false),
            ("message", .str
              "Faucet functionality requires additional setup. Use the Sui CLI or web faucet."),
            ("address", .str (env.sdk.toSuiAddress wallet.keypair)),
            ("faucetUrl", .str ("https://faucet." ++ net ++ ".sui.io/"))]) ∧
        ∃ r, callTool env st "request_tokens_from_faucet" (.obj fields) = .ok r ∧
          r.response.isError = none)) := by
  refine ⟨?_, ?_, ?_⟩
  · rw [dispatch_faucet]
    simp only [handleRequestTokensFromFaucet, getArg]
    repeat' split
    all_goals rfl
  · intro hnet
    rw [dispatch_faucet]
    simp [handleRequestTokensFromFaucet, getArg, hnet, JsVal.strictEqStr]
  · intro net hnet hne
    refine ⟨?_, ?_⟩
    · intro hnone
      rw [dispatch_faucet]
      simp [handleRequestTokensFromFaucet, getArg, hnet, JsVal.strictEqStr, hne, hnone]
    · intro wallet hsome
      have hres : (dispatch env st "request_tokens_from_faucet" (.obj fields)).result =
          .ok (.obj [("success", .bool false),
            ("message", .str
              "Faucet functionality requires additional setup. Use the Sui CLI or web faucet."),
            ("address", .str (env.sdk.toSuiAddress wallet.keypair)),
            ("faucetUrl", .str ("https://faucet." ++ net ++ ".sui.io/"))]) := by
        rw [dispatch_faucet]
        simp [handleRequestTokensFromFaucet, getArg, hnet, JsVal.strictEqStr, hne, hsome,
          JsVal.toJsString]
      exact ⟨hres, _, callTool_of_ok env st _ _ _ hres, rfl⟩

/-- C11 (witness): in the state reached by creating the wallet "alice" and switching to
"localnet", the faucet request for "alice" is answered without error flag, with the faucet
address "https://faucet.localnet.sui.io/"; the request for the unknown wallet "bob" fails with
"Wallet 'bob' not found", which says nothing about the network. -/
theorem faucet_refuses_mainnet_only_witness :
    localnetState.currentNetwork = .str "localnet" ∧
    ((dispatch exampleEnv localnetState "request_tokens_from_faucet"
        (.obj [("walletName", .str "alice")])).result =
      .ok (.obj [("success", .bool false),
        ("message", .str
          "Faucet functionality requires additional setup. Use the Sui CLI or web faucet."),
        ("address", .str (exampleEnv.sdk.toSuiAddress
          ⟨"abandon ability able".data.map Char.toNat⟩)),
        ("faucetUrl", .str ("https://faucet." ++ "localnet" ++ ".sui.io/"))]) ∧
      ∃ r, callTool exampleEnv localnetState "request_tokens_from_faucet"
          (.obj [("walletName", .str "alice")]) = .ok r ∧ r.response.isError = none) ∧
    (dispatch exampleEnv localnetState "request_tokens_from_faucet"
        (.obj [("walletName", .str "bob")])).result =
      .error (.error "Error" ("Wallet '" ++ "bob" ++ "' not found")) :=
  ⟨rfl,
   ((faucet_refuses_mainnet_only exampleEnv localnetState
      [("walletName", .str "alice")]).2.2 "localnet" rfl (by decide)).2
      ⟨⟨"abandon ability able".data.map Char.toNat⟩, .str "alice",
        .str "abandon ability able"⟩ rfl,
   ((faucet_refuses_mainnet_only exampleEnv localnetState
      [("walletName", .str "bob")]).2.2 "localnet" rfl (by decide)).1 rfl⟩

/-! ## C12: switching the network -/

theorem dispatch_switch_network (env : Env) (st : State) (args : JsVal) :
    dispatch env st "switch_network" args = handleSwitchNetwork env st args := rfl

theorem not_network_of_prototype_key (n : String) (h : n ∈ objectPrototypeKeys) :
    n ∉ networkNames ∧ n ≠ "__proto__" := by
  simp only [objectPrototypeKeys, List.mem_cons, List.mem_singleton, List.not_mem_nil,
    or_false] at h
  rcases h with rfl | rfl | rfl | rfl | rfl | rfl | rfl | rfl | rfl | rfl | rfl <;> decide

/-- C12: what `switch_network` does when the `network` argument is the string `n`, in every
state. If `n` is one of "mainnet", "testnet", "devnet", "localnet" (and its configured URL is
not empty), the payload is `success: true`, `previousNetwork: n`, `currentNetwork: n`,
`rpcUrl:` the URL of `n`, and the state afterwards has current network `n` and a client for
that URL: `previousNetwork` is read after the switch, so it is the new network, not the one
that was current before the call. If `n` is the name of a property every object inherits
("toString", "constructor", ..., also "__proto__"), the lookup in `NETWORKS` finds that
inherited value, the call succeeds and the current network becomes `n`. For every other string the call throws
"Unsupported network: n" and the state is unchanged. -/
theorem switch_network_spec (env : Env) (st : State) (fields : List (String × JsVal))
    (n : String) (hn : fields.lookup "network" = some (.str n)) :
    (n ∈ networkNames → env.sdk.getFullnodeUrl n ≠ "" →
      dispatch env st "switch_network" (.obj fields) =
        ⟨.ok (.obj [("success", .bool true), ("previousNetwork", .str n),
            ("currentNetwork", .str n), ("rpcUrl", .str (env.sdk.getFullnodeUrl n))]),
          { st with currentNetwork := .str n, client := some (.str (env.sdk.getFullnodeUrl n)) },
          []⟩) ∧
    (n ∈ objectPrototypeKeys →
      dispatch env st "switch_network" (.obj fields) =
        ⟨.ok (.obj [("success", .bool true), ("previousNetwork", .str n),
            ("currentNetwork", .str n), ("rpcUrl", .fn)]),
          { st with currentNetwork := .str n, client := some .fn }, []⟩) ∧
    (n = "__proto__" →
      dispatch env st "switch_network" (.obj fields) =
        ⟨.ok (.obj [("success", .bool true), ("previousNetwork", .str n),
            ("currentNetwork", .str n), ("rpcUrl", .obj [])]),
          { st with currentNetwork := .str n, client := some (.obj []) }, []⟩) ∧
    (n ∉ networkNames → n ∉ objectPrototypeKeys → n ≠ "__proto__" →
      dispatch env st "switch_network" (.obj fields) =
        ⟨.error (.error "Error" ("Unsupported network: " ++ n)), st, []⟩) := by
  refine ⟨?_, ?_, ?_, ?_⟩
  · intro hmem hurl
    have hget : networksGet env (.str n) = .str (env.sdk.getFullnodeUrl n) := by
      simp [networksGet, JsVal.toJsString, hmem]
    rw [dispatch_switch_network]
    simp [handleSwitchNetwork, getArg, hn, hget, JsVal.truthy, initializeClient, hurl]
  · intro hkey
    obtain ⟨h1, h2⟩ := not_network_of_prototype_key n hkey
    have hget : networksGet env (.str n) = .fn := by
      simp [networksGet, JsVal.toJsString, h1, h2, hkey]
    rw [dispatch_switch_network]
    simp [handleSwitchNetwork, getArg, hn, hget, JsVal.truthy, initializeClient]
  · intro hproto
    subst hproto
    have hget : networksGet env (.str "__proto__") = .obj [] := by
      simp [networksGet, JsVal.toJsString, networkNames]
    rw [dispatch_switch_network]
    simp [handleSwitchNetwork, getArg, hn, hget, JsVal.truthy, initializeClient]
  · intro h1 h2 h3
    have hget : networksGet env (.str n) = .undefined := by
      simp [networksGet, JsVal.toJsString, h1, h2, h3]
    rw [dispatch_switch_network]
    simp [handleSwitchNetwork, getArg, hn, hget, JsVal.truthy, JsVal.toJsString]

/-- C12 (witness): in the initial state the current network is "devnet"; switching to "testnet"
returns `previousNetwork: "testnet"`, not "devnet". And the network string "toString" is not
refused: the current network becomes "toString". -/
theorem switch_network_spec_witness :
    State.initial.currentNetwork = .str "devnet" ∧
    dispatch exampleEnv State.initial "switch_network" (.obj [("network", .str "toString")]) =
      ⟨.ok (.obj [("success", .bool true), ("previousNetwork", .str "toString"),
          ("currentNetwork", .str "toString"), ("rpcUrl", .fn)]),
        { State.initial with currentNetwork := .str "toString", client := some .fn }, []⟩ ∧
    dispatch exampleEnv State.initial "switch_network" (.obj [("network", .str "testnet")]) =
      ⟨.ok (.obj [("success", .bool true), ("previousNetwork", .str "testnet"),
          ("currentNetwork", .str "testnet"),
          ("rpcUrl", .str (exampleEnv.sdk.getFullnodeUrl "testnet"))]),
        { State.initial with currentNetwork := .str "testnet",
                             client := some (.str (exampleEnv.sdk.getFullnodeUrl "testnet")) },
        []⟩ ∧
    exampleEnv.sdk.getFullnodeUrl "testnet" = "https://fullnode.testnet.sui.io:443" :=
  ⟨rfl,
   (switch_network_spec exampleEnv State.initial [("network", .str "toString")] "toString"
      rfl).2.1 (by decide),
   (switch_network_spec exampleEnv State.initial [("network", .str "testnet")] "testnet"
      rfl).1 (by decide) (by decide),
   by decide⟩

end SuiMcp
